import Mathlib

/-!
Verification of the configuration normalization and resource-registry
transformation pipeline of the `alchemy-migrator` repository.

The TypeScript sources are embedded shallowly:

* JavaScript objects / `Map`s keyed by strings become association lists
  (`List (String × β)`) with JavaScript assignment semantics (`jsSet`:
  replace in place on an existing key, append otherwise; `jsLookup`:
  first matching entry).
* JavaScript `Set<string>` becomes a duplicate-free `List String`
  (`jsSetAdd` keeps insertion order).
* JavaScript numbers are modelled as `Int`; no claim depends on numeric
  semantics — the pipeline only copies numeric fields through.
* Thrown exceptions are modelled by `Option`: `none` is an abnormal
  termination (a thrown `TypeError`), `some` a normal return.
-/

set_option autoImplicit false

namespace AlchemyMigrator

universe u v

/-- Association-list lookup with JavaScript semantics: the first entry whose
key equals `k` (keys are unique in maps built by `jsSet`). -/
def jsLookup {β : Type v} (k : String) : List (String × β) → Option β
  | [] => none
  | (k2, v) :: rest => if k2 = k then some v else jsLookup k rest

/-- JavaScript `Map.set` / object-property assignment: replace the value in
place when the key is present, append the pair otherwise. -/
def jsSet {β : Type v} (m : List (String × β)) (k : String) (v : β) :
    List (String × β) :=
  match m with
  | [] => [(k, v)]
  | (k2, v2) :: rest =>
    if k2 = k then (k2, v) :: rest else (k2, v2) :: jsSet rest k v

/-- JavaScript `Set.add`: append the element when absent, keep the set
unchanged when present. -/
def jsSetAdd (s : List String) (x : String) : List String :=
  if x ∈ s then s else s ++ [x]

/-- JavaScript string truthiness applied by `a || b` on strings: an empty
string falls through to the alternative. -/
def jsOrString (a b : String) : String :=
  if a = "" then b else a

/-- JavaScript `a || b` where `a` is an optional string field: `undefined`
and the empty string both fall through. -/
def jsOrOptString (a : Option String) (b : String) : String :=
  match a with
  | some s => jsOrString s b
  | none => b

/-- `Array.prototype.map` with the element index, as in
`list.map((x, index) => f(index, x))`. -/
def jsMapIdx {α : Type u} {β : Type v} (f : Nat → α → β) : Nat → List α → List β
  | _, [] => []
  | i, a :: tl => f i a :: jsMapIdx f (i + 1) tl

/-- Does `l` start with `pat`? Auxiliary for the substring matcher. -/
def leadMatch : List Char → List Char → Bool
  | [], _ => true
  | _ :: _, [] => false
  | p :: ps, c :: cs => p == c && leadMatch ps cs

/-- Does `l` contain `pat` as a contiguous run?  Embeds an unanchored
regular-expression test of a literal pattern. -/
def hasSub (pat : List Char) : List Char → Bool
  | [] => pat.isEmpty
  | c :: cs => leadMatch pat (c :: cs) || hasSub pat cs

/-- Is `c` in the character class `[a-z0-9_]` under the `i` flag of a
non-Unicode JavaScript regular expression?  Such a class matches exactly the
ASCII ranges `a-z`, `A-Z`, `0-9` and `_`: canonicalization of a non-`u`
regex never folds a code point ≥ U+0080 onto an ASCII letter. -/
def isIdChar (c : Char) : Bool :=
  (97 ≤ c.toNat && c.toNat ≤ 122) || (65 ≤ c.toNat && c.toNat ≤ 90) ||
    (48 ≤ c.toNat && c.toNat ≤ 57) || c == '_'

/-- Case folding a single character for a case-insensitive non-Unicode
JavaScript regex match against an ASCII pattern letter: only `A-Z` fold onto
`a-z`; a code point ≥ U+0080 never folds onto ASCII. -/
def regexFold (c : Char) : Char :=
  if 65 ≤ c.toNat && c.toNat ≤ 90 then Char.ofNat (c.toNat + 32) else c

/-- One character of `String.prototype.toLowerCase` (Unicode full lowercase
mapping).  `A-Z` map into `a-z`; U+212A (KELVIN SIGN) maps to `k` and U+0130
(LATIN CAPITAL LETTER I WITH DOT ABOVE) maps to `i` followed by U+0307 —
these are the only code points whose lowercase crosses into ASCII.  Every
other non-ASCII code point lowercases to non-ASCII code points; those are
kept verbatim here, which is observationally equal under the subsequent
`[^a-z0-9_]` replacement that sends every non-ASCII character to `_`. -/
def jsLowerChar (c : Char) : List Char :=
  if 65 ≤ c.toNat && c.toNat ≤ 90 then [Char.ofNat (c.toNat + 32)]
  else if c = '\u212A' then ['k']
  else if c = '\u0130' then ['i', '\u0307']
  else [c]

/-- `String.prototype.toLowerCase`. -/
def jsToLowerCase (s : String) : String :=
  ⟨(s.data.map jsLowerChar).flatten⟩

/-- `id.replace(/[^a-z0-9_]/gi, "_")`: every character outside the class is
replaced (each match is a single character). -/
def replaceNonId (s : String) : String :=
  ⟨s.data.map (fun c => if isIdChar c then c else '_')⟩

/-- Is an optional string field truthy in JavaScript (`if (x)`)?  `undefined`
and the empty string are falsy. -/
def truthyOpt (o : Option String) : Bool :=
  match o with
  | some s => s != ""
  | none => false

/-! ## Data model (src/parsers/schema.ts) -/

/-- A plain-variable value, `z.union([z.string(), z.number(), z.boolean()])`.
Numbers are modelled as `Int`. -/
inductive JsValue where
  | str (s : String)
  | num (n : Int)
  | bool (b : Bool)
  deriving DecidableEq

/-- One `kv_namespaces` entry. -/
structure KVNamespaceDecl where
  binding : String
  id : Option String
  preview_id : Option String
  deriving DecidableEq

/-- One `r2_buckets` entry. -/
structure R2BucketDecl where
  binding : String
  bucket_name : String
  preview_bucket_name : Option String
  jurisdiction : Option String
  deriving DecidableEq

/-- One `d1_databases` entry. -/
structure D1DatabaseDecl where
  binding : String
  database_name : String
  database_id : Option String
  preview_database_id : Option String
  migrations_dir : Option String
  migrations_table : Option String
  deriving DecidableEq

/-- One `queues.producers` entry. -/
structure QueueProducerDecl where
  binding : String
  queue : String
  deriving DecidableEq

/-- One `queues.consumers` entry. -/
structure QueueConsumerDecl where
  queue : String
  max_batch_size : Option Int
  max_batch_timeout : Option Int
  max_retries : Option Int
  dead_letter_queue : Option String
  max_concurrency : Option Int
  deriving DecidableEq

/-- The `queues` block. -/
structure QueuesDecl where
  producers : Option (List QueueProducerDecl)
  consumers : Option (List QueueConsumerDecl)
  deriving DecidableEq

/-- One `durable_objects.bindings` entry. -/
structure DurableObjectBindingDecl where
  name : String
  class_name : String
  script_name : Option String
  environment : Option String
  deriving DecidableEq

/-- The `durable_objects` block (the `migrations` sub-field is never read by
the embedded pipeline and is omitted). -/
structure DurableObjectsDecl where
  bindings : Option (List DurableObjectBindingDecl)
  deriving DecidableEq

/-- One `services` entry. -/
structure ServiceDecl where
  binding : String
  service : String
  environment : Option String
  deriving DecidableEq

/-- One `hyperdrive` entry. -/
structure HyperdriveDecl where
  binding : String
  id : String
  deriving DecidableEq

/-- The `ai` block. -/
structure AIDecl where
  binding : String
  deriving DecidableEq

/-- One `analytics_engine_datasets` entry. -/
structure AnalyticsEngineDecl where
  binding : String
  dataset : Option String
  deriving DecidableEq

/-- The `browser` block. -/
structure BrowserDecl where
  binding : String
  deriving DecidableEq

/-- One `dispatch_namespaces` entry (`namespace` is a Lean keyword, hence the
field name `namespace_`). -/
structure DispatchNamespaceDecl where
  binding : String
  namespace_ : String
  deriving DecidableEq

/-- One `routes` entry: a bare pattern string or a pattern object. -/
inductive RouteDecl where
  | str (s : String)
  | obj (pattern : String) (zone_id : Option String) (zone_name : Option String)
      (custom_domain : Option Bool)
  deriving DecidableEq

/-- The `triggers` block. -/
structure TriggersDecl where
  crons : Option (List String)
  deriving DecidableEq

/-- The `observability` block (`head_sampling_rate` is a JavaScript number,
modelled as `Int`; it is only copied through). -/
structure ObservabilityDecl where
  enabled : Option Bool
  head_sampling_rate : Option Int
  deriving DecidableEq

/-- The `site` block (only its presence and `bucket` are ever read). -/
structure SiteDecl where
  bucket : String
  deriving DecidableEq

/-- One `tail_consumers` entry. -/
structure TailConsumerDecl where
  service : String
  environment : Option String
  deriving DecidableEq

/-- A partial configuration unit, `BaseWorkerSchema.partial()`: the shape of
one `env.<name>` override.  Every field is optional; a `some` models a key
present in the parsed object (Zod omits absent optional keys).  Its own
nested `env` field is never read and is omitted. -/
structure PartialWranglerConfig where
  name : Option String
  main : Option String
  compatibility_date : Option String
  compatibility_flags : Option (List String)
  kv_namespaces : Option (List KVNamespaceDecl)
  r2_buckets : Option (List R2BucketDecl)
  d1_databases : Option (List D1DatabaseDecl)
  queues : Option QueuesDecl
  durable_objects : Option DurableObjectsDecl
  services : Option (List ServiceDecl)
  hyperdrive : Option (List HyperdriveDecl)
  ai : Option AIDecl
  analytics_engine_datasets : Option (List AnalyticsEngineDecl)
  browser : Option BrowserDecl
  dispatch_namespaces : Option (List DispatchNamespaceDecl)
  vars : Option (List (String × JsValue))
  triggers : Option TriggersDecl
  routes : Option (List RouteDecl)
  observability : Option ObservabilityDecl
  unsafeSection : Option Unit
  site : Option SiteDecl
  tail_consumers : Option (List TailConsumerDecl)
  deriving DecidableEq

/-- A schema-validated configuration unit (`WranglerConfig`).  `name` is the
only required field.  `unsafeSection` models the schema's `unsafe` block, of
which only the presence is ever read. -/
structure WranglerConfig where
  name : String
  main : Option String
  compatibility_date : Option String
  compatibility_flags : Option (List String)
  kv_namespaces : Option (List KVNamespaceDecl)
  r2_buckets : Option (List R2BucketDecl)
  d1_databases : Option (List D1DatabaseDecl)
  queues : Option QueuesDecl
  durable_objects : Option DurableObjectsDecl
  services : Option (List ServiceDecl)
  hyperdrive : Option (List HyperdriveDecl)
  ai : Option AIDecl
  analytics_engine_datasets : Option (List AnalyticsEngineDecl)
  browser : Option BrowserDecl
  dispatch_namespaces : Option (List DispatchNamespaceDecl)
  vars : Option (List (String × JsValue))
  triggers : Option TriggersDecl
  routes : Option (List RouteDecl)
  observability : Option ObservabilityDecl
  unsafeSection : Option Unit
  site : Option SiteDecl
  tail_consumers : Option (List TailConsumerDecl)
  env : Option (List (String × PartialWranglerConfig))
  deriving DecidableEq

/-- Source format of the parsed file. -/
inductive ConfigFormat where
  | toml
  | json
  deriving DecidableEq

/-- `NormalizedWranglerConfig`: the base unit with defaults applied, the
extracted environments and the `_meta` block. -/
structure NormalizedWranglerConfig where
  base : WranglerConfig
  environments : List (String × WranglerConfig)
  sourceFormat : ConfigFormat
  hasPreviewIds : Bool
  deriving DecidableEq

/-! ## Resource mapper (src/transformers/resource-mapper.ts) -/

/-- `ResourceMappingOptions`. -/
structure ResourceMappingOptions where
  adopt : Bool
  preserveNames : Bool
  stage : Option String
  appName : String
  deriving DecidableEq

/-- The `type` discriminant of an `AlchemyResource`. -/
inductive AlchemyResourceType where
  | KVNamespace
  | R2Bucket
  | D1Database
  | Queue
  | DurableObjectNamespace
  deriving DecidableEq

/-- A value in the open `props` bag of an `AlchemyResource`.  `undefVal` models
an object-literal key whose value is `undefined`. -/
inductive PropValue where
  | str (s : String)
  | bool (b : Bool)
  | undefVal
  deriving DecidableEq

/-- An `undefined`-able string prop (`jurisdiction: bucket.jurisdiction`). -/
def optProp (o : Option String) : PropValue :=
  match o with
  | some s => .str s
  | none => .undefVal

/-- `db.migrations_dir || undefined`: the empty string also collapses to
`undefined`. -/
def orUndefProp (o : Option String) : PropValue :=
  match o with
  | some s => if s = "" then .undefVal else .str s
  | none => .undefVal

/-- `AlchemyResource`. -/
structure AlchemyResource where
  type : AlchemyResourceType
  id : String
  variableName : String
  adopt : Bool
  props : List (String × PropValue)
  deriving DecidableEq

namespace ResourceMapper

/-- `ResourceMapper.sanitizeId`: `id.replace(/[^a-z0-9_]/gi, "_")`. -/
def sanitizeId (id : String) : String :=
  replaceNonId id

/-- `ResourceMapper.generateVariableName`. -/
def generateVariableName (p : String) (id : String) (index : Nat) : String :=
  if id ≠ "" ∧ id ≠ "binding" ∧ id ≠ p then id
  else p ++ (if index > 0 then toString (index + 1) else "")

/-- `ResourceMapper.generateResourceName`. -/
def generateResourceName (opts : ResourceMappingOptions) (type : String)
    (id : String) : String :=
  let parts := [opts.appName]
  let parts := if id ≠ "" ∧ id ≠ type then parts ++ [id] else parts ++ [type]
  let parts :=
    match opts.stage with
    | some st => if st = "" then parts else parts ++ [st]
    | none => parts
  String.intercalate "-" parts

/-- `ResourceMapper.mapKVNamespaces`. -/
def mapKVNamespaces (opts : ResourceMappingOptions)
    (kvNamespaces : Option (List KVNamespaceDecl)) : List AlchemyResource :=
  match kvNamespaces with
  | none => []
  | some l =>
    if l.isEmpty then []
    else
      jsMapIdx (fun index kv =>
        let id := sanitizeId (jsToLowerCase kv.binding)
        let variableName := generateVariableName "kv" id index
        let title :=
          if opts.preserveNames && truthyOpt kv.id then kv.binding
          else generateResourceName opts "kv" id
        { type := .KVNamespace, id, variableName, adopt := opts.adopt,
          props := [("title", .str title), ("adopt", .bool opts.adopt)] }) 0 l

/-- `ResourceMapper.mapR2Buckets`. -/
def mapR2Buckets (opts : ResourceMappingOptions)
    (r2Buckets : Option (List R2BucketDecl)) : List AlchemyResource :=
  match r2Buckets with
  | none => []
  | some l =>
    if l.isEmpty then []
    else
      jsMapIdx (fun index bucket =>
        let id := sanitizeId (jsToLowerCase bucket.binding)
        let variableName := generateVariableName "bucket" id index
        let name :=
          if opts.preserveNames then bucket.bucket_name
          else generateResourceName opts "bucket" id
        { type := .R2Bucket, id, variableName, adopt := opts.adopt,
          props := [("name", .str name),
            ("jurisdiction", optProp bucket.jurisdiction),
            ("adopt", .bool opts.adopt)] }) 0 l

/-- `ResourceMapper.mapD1Databases`. -/
def mapD1Databases (opts : ResourceMappingOptions)
    (d1Databases : Option (List D1DatabaseDecl)) : List AlchemyResource :=
  match d1Databases with
  | none => []
  | some l =>
    if l.isEmpty then []
    else
      jsMapIdx (fun index db =>
        let id := sanitizeId (jsToLowerCase db.binding)
        let variableName := generateVariableName "db" id index
        let name :=
          if opts.preserveNames then db.database_name
          else generateResourceName opts "db" id
        { type := .D1Database, id, variableName, adopt := opts.adopt,
          props := [("name", .str name),
            ("migrationsDir", orUndefProp db.migrations_dir),
            ("adopt", .bool opts.adopt)] }) 0 l

/-- `ResourceMapper.mapQueues` (queue producers). -/
def mapQueues (opts : ResourceMappingOptions) (queues : Option QueuesDecl) :
    List AlchemyResource :=
  match queues.bind (·.producers) with
  | none => []
  | some l =>
    if l.isEmpty then []
    else
      jsMapIdx (fun index queue =>
        let id := sanitizeId (jsToLowerCase queue.binding)
        let variableName := generateVariableName "queue" id index
        let name :=
          if opts.preserveNames then queue.queue
          else generateResourceName opts "queue" id
        { type := .Queue, id, variableName, adopt := opts.adopt,
          props := [("name", .str name), ("adopt", .bool opts.adopt)] }) 0 l

/-- `ResourceMapper.mapDurableObjects` — `adopt` is hard-coded `false`
(“DOs typically defined in same worker”). -/
def mapDurableObjects (_opts : ResourceMappingOptions)
    (durableObjects : Option DurableObjectsDecl) : List AlchemyResource :=
  match durableObjects.bind (·.bindings) with
  | none => []
  | some l =>
    if l.isEmpty then []
    else
      jsMapIdx (fun index do_ =>
        let id := sanitizeId (jsToLowerCase do_.name)
        let variableName := generateVariableName "do" id index
        { type := .DurableObjectNamespace, id, variableName, adopt := false,
          props := [("className", .str do_.class_name),
            ("scriptName", optProp do_.script_name)] }) 0 l

end ResourceMapper

/-! ## Binding transformer (src/transformers/binding-transformer.ts) -/

/-- `AlchemyBinding`. -/
inductive AlchemyBinding where
  | resource (resourceRef : String)
  | secret (secretName : String)
  | plainText (value : String)
  | json (value : JsValue)
  deriving DecidableEq

namespace BindingTransformer

/-- `BindingTransformer.sanitizeId`:
`id.replace(/[^a-z0-9_]/gi, "_").toLowerCase()`. -/
def sanitizeId (id : String) : String :=
  jsToLowerCase (replaceNonId id)

/-- `BindingTransformer.shouldBeSecret`: a case-insensitive unanchored test
of the variable *name* against the seven secret patterns; `[_-]?` is expanded
into its three literal alternatives. -/
def shouldBeSecret (key : String) : Bool :=
  let f := key.data.map regexFold
  hasSub "apikey".data f || hasSub "api_key".data f || hasSub "api-key".data f ||
  hasSub "secret".data f || hasSub "password".data f || hasSub "token".data f ||
  hasSub "privatekey".data f || hasSub "private_key".data f ||
  hasSub "private-key".data f || hasSub "auth".data f || hasSub "credential".data f

/-- One resource-category loop of `transformBindings`: for each declared
binding name, look up `<code>:<sanitizeId(name)>` in the resource map and
emit a resource binding when it resolves; silently skip otherwise. -/
def resourceLoop (resources : List (String × String)) (code : String)
    (names : List String) (b : List (String × AlchemyBinding)) :
    List (String × AlchemyBinding) :=
  names.foldl (fun b name =>
    match jsLookup (code ++ ":" ++ sanitizeId name) resources with
    | some v => jsSet b name (.resource v)
    | none => b) b

/-- The environment-variables loop of `transformBindings`: secret names
become secret bindings (and are added to the context's secret set), string
values literal-text bindings, and any other value a JSON binding. -/
def varsLoop (vars : List (String × JsValue))
    (b : List (String × AlchemyBinding)) (secrets : List String) :
    List (String × AlchemyBinding) × List String :=
  vars.foldl (fun acc kv =>
    if shouldBeSecret kv.1 then
      (jsSet acc.1 kv.1 (.secret kv.1), jsSetAdd acc.2 kv.1)
    else
      match kv.2 with
      | .str s => (jsSet acc.1 kv.1 (.plainText s), acc.2)
      | v => (jsSet acc.1 kv.1 (.json v), acc.2)) (b, secrets)

/-- `BindingTransformer.transformBindings`: categories are processed in
source order — KV, R2, D1, queue producers, durable objects, environment
variables, hyperdrive, AI, analytics engine, browser rendering, dispatch
namespaces (service bindings are a no-op).  Returns the binding map and the
updated secret set of the context. -/
def transformBindings (config : WranglerConfig)
    (resources : List (String × String)) (secrets0 : List String) :
    List (String × AlchemyBinding) × List String :=
  let b := resourceLoop resources "kv"
    ((config.kv_namespaces.getD []).map (·.binding)) []
  let b := resourceLoop resources "r2"
    ((config.r2_buckets.getD []).map (·.binding)) b
  let b := resourceLoop resources "d1"
    ((config.d1_databases.getD []).map (·.binding)) b
  let b := resourceLoop resources "queue"
    (((config.queues.bind (·.producers)).getD []).map (·.binding)) b
  let b := resourceLoop resources "durableobject"
    (((config.durable_objects.bind (·.bindings)).getD []).map (·.name)) b
  let bs := varsLoop (config.vars.getD []) b secrets0
  let b := resourceLoop resources "hyperdrive"
    ((config.hyperdrive.getD []).map (·.binding)) bs.1
  let b := resourceLoop resources "ai" ((config.ai.map (·.binding)).toList) b
  let b := resourceLoop resources "analyticsenginedataset"
    ((config.analytics_engine_datasets.getD []).map (·.binding)) b
  let b := resourceLoop resources "browserrendering"
    ((config.browser.map (·.binding)).toList) b
  let b := resourceLoop resources "dispatch"
    ((config.dispatch_namespaces.getD []).map (·.binding)) b
  (b, bs.2)

end BindingTransformer

/-! ## Config transformer (src/transformers/index.ts) -/

/-- `TransformOptions`. -/
structure TransformOptions where
  appName : Option String
  stage : Option String
  adopt : Option Bool
  preserveNames : Option Bool
  targetEnvironment : Option String
  deriving DecidableEq

/-- The worker `props` object built by the transformer. -/
structure WorkerProps where
  name : String
  entrypoint : String
  compatibilityDate : Option String
  compatibilityFlags : Option (List String)
  observability : Option ObservabilityDecl
  deriving DecidableEq

/-- A transformed route. -/
structure RouteOut where
  pattern : String
  zoneId : Option String
  zoneName : Option String
  deriving DecidableEq

/-- Transformed queue-consumer settings. -/
structure ConsumerSettings where
  batchSize : Option Int
  maxWaitTimeMs : Option Int
  maxRetries : Option Int
  maxConcurrency : Option Int
  deadLetterQueue : Option String
  deriving DecidableEq

/-- One transformed queue-consumer event source. -/
structure EventSource where
  queueRef : String
  settings : ConsumerSettings
  deriving DecidableEq

/-- `AlchemyWorker`. -/
structure AlchemyWorker where
  id : String
  variableName : String
  props : WorkerProps
  bindings : List (String × AlchemyBinding)
  routes : Option (List RouteOut)
  crons : Option (List String)
  eventSources : Option (List EventSource)
  deriving DecidableEq

/-- `AlchemyConfig`, the transformer's output model. -/
structure AlchemyConfig where
  appName : String
  stage : Option String
  resources : List AlchemyResource
  workers : List AlchemyWorker
  secrets : List String
  plainTextVars : List (String × String)
  deriving DecidableEq

namespace ConfigTransformer

/-- The key-derivation short code used when building the resource lookup map:
the value of `resource.type.toLowerCase().replace(/namespace|database|bucket/gi, "")`
on each of the five `type` literals (`"KVNamespace" ↦ "kv"`,
`"R2Bucket" ↦ "r2"`, `"D1Database" ↦ "d1"`, `"Queue" ↦ "queue"`,
`"DurableObjectNamespace" ↦ "durableobject"`). -/
def shortCode : AlchemyResourceType → String
  | .KVNamespace => "kv"
  | .R2Bucket => "r2"
  | .D1Database => "d1"
  | .Queue => "queue"
  | .DurableObjectNamespace => "durableobject"

/-- The lookup key of one mapped resource:
```${resource.type.toLowerCase().replace(/namespace|database|bucket/gi, "")}:${resource.id}` ``. -/
def resourceKeyOf (r : AlchemyResource) : String :=
  shortCode r.type ++ ":" ++ r.id

/-- The mapped resource list of one target configuration. -/
def resourcesOf (targetConfig : WranglerConfig)
    (opts : ResourceMappingOptions) : List AlchemyResource :=
  ResourceMapper.mapKVNamespaces opts targetConfig.kv_namespaces ++
  ResourceMapper.mapR2Buckets opts targetConfig.r2_buckets ++
  ResourceMapper.mapD1Databases opts targetConfig.d1_databases ++
  ResourceMapper.mapQueues opts targetConfig.queues ++
  ResourceMapper.mapDurableObjects opts targetConfig.durable_objects

/-- The resource lookup map: `resourceMap.set(key, resource.variableName)`
over the mapped resources in order. -/
def resourceMapOf (resources : List AlchemyResource) :
    List (String × String) :=
  resources.foldl (fun m r => jsSet m (resourceKeyOf r) r.variableName) []

/-- `ConfigTransformer.transformRoutes`. -/
def transformRoutes (routes : Option (List RouteDecl)) :
    Option (List RouteOut) :=
  routes.map (List.map fun route =>
    match route with
    | .str s => { pattern := s, zoneId := none, zoneName := none }
    | .obj p zi zn _ => { pattern := p, zoneId := zi, zoneName := zn })

/-- `ConfigTransformer.transformQueueConsumers`.  `queueRef` falls back to
the raw queue name when `queue:<name>` is not in the resource map. -/
def transformQueueConsumers (consumers : Option (List QueueConsumerDecl))
    (resourceMap : List (String × String)) : Option (List EventSource) :=
  match consumers with
  | none => none
  | some l =>
    if l.isEmpty then none
    else
      some (l.map fun consumer =>
        { queueRef :=
            ((jsLookup ("queue:" ++ consumer.queue) resourceMap).getD
              consumer.queue),
          settings :=
            { batchSize := consumer.max_batch_size,
              maxWaitTimeMs := consumer.max_batch_timeout,
              maxRetries := consumer.max_retries,
              maxConcurrency := consumer.max_concurrency,
              deadLetterQueue := consumer.dead_letter_queue } })

/-- `ConfigTransformer.extractPlainVars`: string-valued variables not in the
secret set. -/
def extractPlainVars (vars : List (String × JsValue)) (secrets : List String) :
    List (String × String) :=
  vars.foldl (fun plainVars kv =>
    if kv.1 ∉ secrets then
      match kv.2 with
      | .str s => jsSet plainVars kv.1 s
      | _ => plainVars
    else plainVars) []

/-- The body of `ConfigTransformer.transform` after the target configuration
has been selected. -/
def transformCore (targetConfig : WranglerConfig) (appName : String)
    (stage : Option String) (adopt preserveNames : Bool) : AlchemyConfig :=
  let opts : ResourceMappingOptions :=
    { adopt, preserveNames, stage, appName }
  let resources := resourcesOf targetConfig opts
  let resourceMap := resourceMapOf resources
  let bs := BindingTransformer.transformBindings targetConfig resourceMap []
  let workerName :=
    if preserveNames then targetConfig.name
    else
      match stage with
      | some st => if st = "" then appName else appName ++ "-" ++ st
      | none => appName
  let worker : AlchemyWorker :=
    { id := "worker", variableName := "worker",
      props :=
        { name := workerName,
          entrypoint := jsOrOptString targetConfig.main "./src/index.js",
          compatibilityDate := targetConfig.compatibility_date,
          compatibilityFlags := targetConfig.compatibility_flags,
          observability := targetConfig.observability },
      bindings := bs.1,
      routes := transformRoutes targetConfig.routes,
      crons := targetConfig.triggers.bind (·.crons),
      eventSources := transformQueueConsumers
        (targetConfig.queues.bind (·.consumers)) resourceMap }
  { appName, stage, resources, workers := [worker], secrets := bs.2,
    plainTextVars := extractPlainVars (targetConfig.vars.getD []) bs.2 }

/-- `ConfigTransformer.transform`.  Selecting a truthy `targetEnvironment`
that is absent from `environments` makes the source dereference `undefined`
and throw a `TypeError`; that abnormal termination is the `none` result. -/
def transform (wranglerConfig : NormalizedWranglerConfig)
    (options : TransformOptions) : Option AlchemyConfig :=
  let appName := jsOrOptString options.appName wranglerConfig.base.name
  let stage := options.stage
  let adopt := options.adopt.getD true
  let preserveNames := options.preserveNames.getD true
  match options.targetEnvironment with
  | some t =>
    if t = "" then
      some (transformCore wranglerConfig.base appName stage adopt preserveNames)
    else
      match jsLookup t wranglerConfig.environments with
      | some envConfig =>
        some (transformCore envConfig appName stage adopt preserveNames)
      | none => none
  | none =>
    some (transformCore wranglerConfig.base appName stage adopt preserveNames)

end ConfigTransformer

/-! ## Parser normalization (src/parsers/index.ts) -/

/-- The object-spread merge of two plain-variable records:
`{ ...base.vars, ...override.vars }`. -/
def spreadMergeVars (base override : List (String × JsValue)) :
    List (String × JsValue) :=
  (base ++ override).foldl (fun m kv => jsSet m kv.1 kv.2) []

/-- `mergeConfigs(base, override)`: object spread (`override` key presence
wins field-wise), with the three resource lists restated explicitly as
`override.x || base.x` and `vars` shallow-merged.  The merged `env` is the
base's (`override` has no `env` key in the model). -/
def mergeConfigs (base : WranglerConfig) (override : PartialWranglerConfig) :
    WranglerConfig :=
  { name := override.name.getD base.name,
    main := override.main <|> base.main,
    compatibility_date := override.compatibility_date <|> base.compatibility_date,
    compatibility_flags := override.compatibility_flags <|> base.compatibility_flags,
    kv_namespaces := override.kv_namespaces <|> base.kv_namespaces,
    r2_buckets := override.r2_buckets <|> base.r2_buckets,
    d1_databases := override.d1_databases <|> base.d1_databases,
    queues := override.queues <|> base.queues,
    durable_objects := override.durable_objects <|> base.durable_objects,
    services := override.services <|> base.services,
    hyperdrive := override.hyperdrive <|> base.hyperdrive,
    ai := override.ai <|> base.ai,
    analytics_engine_datasets :=
      override.analytics_engine_datasets <|> base.analytics_engine_datasets,
    browser := override.browser <|> base.browser,
    dispatch_namespaces :=
      override.dispatch_namespaces <|> base.dispatch_namespaces,
    vars := some (spreadMergeVars (base.vars.getD []) (override.vars.getD [])),
    triggers := override.triggers <|> base.triggers,
    routes := override.routes <|> base.routes,
    observability := override.observability <|> base.observability,
    unsafeSection := override.unsafeSection <|> base.unsafeSection,
    site := override.site <|> base.site,
    tail_consumers := override.tail_consumers <|> base.tail_consumers,
    env := base.env }

/-- `normalizeConfig(config, format)`.  The impure default for a missing
`compatibility_date` (`new Date().toISOString().split("T")[0]`) is modelled
by the explicit `today` argument. -/
def normalizeConfig (config : WranglerConfig) (format : ConfigFormat)
    (today : String) : NormalizedWranglerConfig :=
  let baseConfig := { config with env := none }
  let environments :=
    (config.env.getD []).map (fun p => (p.1, mergeConfigs baseConfig p.2))
  let hasPreviewIds :=
    (config.kv_namespaces.getD []).any (fun kv => truthyOpt kv.preview_id) ||
    (config.d1_databases.getD []).any
      (fun db => truthyOpt db.preview_database_id) ||
    (config.r2_buckets.getD []).any
      (fun r2 => truthyOpt r2.preview_bucket_name)
  { base := { baseConfig with
      name := jsOrString config.name "unnamed-worker",
      main := some (jsOrOptString config.main "src/index.js"),
      compatibility_date := some (jsOrOptString config.compatibility_date today) },
    environments, sourceFormat := format, hasPreviewIds }

/-! ## Config validator (src/validators/config-validator.ts) -/

/-- `ValidationResult`. -/
structure ValidationResult where
  valid : Bool
  errors : List String
  warnings : List String
  deriving DecidableEq

/-- One `addBinding(name, type)` step over the accumulated
`(bindingNames, errors)` state: an already-seen name appends a duplicate
error, and the name joins the set either way. -/
def addBindingStep (st : List String × List String) (name : String) :
    List String × List String :=
  (jsSetAdd st.1 name,
    if name ∈ st.1 then st.2 ++ ["Duplicate binding name: " ++ name] else st.2)

/-- `validateConfig`: the missing-name error, a duplicate-name scan over the
KV, R2, D1 and queue-producer binding names (in that order), and the four
advisory warnings.  Read-only and total. -/
def validateConfig (config : WranglerConfig) : ValidationResult :=
  let errors := if config.name = "" then ["Missing required field: name"] else []
  let names :=
    ((config.kv_namespaces.getD []).map (·.binding)) ++
    ((config.r2_buckets.getD []).map (·.binding)) ++
    ((config.d1_databases.getD []).map (·.binding)) ++
    (((config.queues.bind (·.producers)).getD []).map (·.binding))
  let st := names.foldl addBindingStep ([], errors)
  let warnings :=
    (if (config.services.getD []).isEmpty then []
     else ["Service bindings require manual configuration in Alchemy"]) ++
    (if config.unsafeSection.isSome then
      ["Unsafe bindings may require manual migration"] else []) ++
    (if config.site.isSome then
      ["Static site configuration should use Alchemy Assets resource"]
     else []) ++
    (if (config.tail_consumers.getD []).isEmpty then []
     else ["Tail consumers require manual configuration"])
  { valid := st.2.isEmpty, errors := st.2, warnings }

/-! ## Spec-modelled registry (spec §3, §4.1, §4.2, §4.4)

The repository declares a `ResourceRegistry` interface
(src/transformers/resource-mapper.ts, IR section) and its roadmap schedules
the implementation; no `getOrInsert` exists in the source.  The definitions
in this section are therefore modelled from the spec's words. -/

/-- Modelled from the spec: `makeKey(resourceType, rawLocalName)` of §4.1 —
the local name is lowercased and every character outside `[a-z0-9_]`
replaced by `_`, then joined to the resource type with `:`.  The source
implements no such shared function. -/
def makeKey (resourceType : String) (rawLocalName : String) : String :=
  resourceType ++ ":" ++ replaceNonId (jsToLowerCase rawLocalName)

/-- Modelled from the spec: the per-resourceType static never-adoptable rule
table of §4.4 step 5 (stateful-object classes, AI endpoints, managed
browser-automation/render services).  The source implements no mapper for
the AI or browser categories at all. -/
def neverAdoptable (resourceType : String) : Bool :=
  resourceType == "stateful-object-class" ||
  resourceType == "ai-model-endpoint" ||
  resourceType == "render-service"

/-- Modelled from the spec: one declared resource item of a configuration
unit, as consumed by the §4.4 normalizer. -/
structure SpecDecl where
  resourceType : String
  rawName : String
  hasExplicitId : Bool
  properties : List (String × String)
  deriving DecidableEq

/-- Modelled from the spec: `NormalizedResource` of §3. -/
structure NormalizedResource where
  key : String
  resourceType : String
  displayName : String
  variableName : String
  adoptExisting : Bool
  properties : List (String × String)
  deriving DecidableEq

/-- Modelled from the spec: the pipeline options of §4.4/§6. -/
structure SpecOptions where
  appName : String
  stage : Option String
  adopt : Bool
  preserveNames : Bool
  deriving DecidableEq

/-- Modelled from the spec: the factory body of §4.4 — display name by the
§4.4 step 4 naming policy, adoption by the step 5 rule table, properties
carried from the declaration.  The ordinal fallback for `variableName`
(§4.4 step 3) is settled separately against the implemented mapper and is
not duplicated here; the local id is used directly. -/
def specResource (opts : SpecOptions) (d : SpecDecl) : NormalizedResource :=
  let localId := replaceNonId (jsToLowerCase d.rawName)
  { key := makeKey d.resourceType d.rawName,
    resourceType := d.resourceType,
    displayName :=
      if opts.preserveNames && d.hasExplicitId then d.rawName
      else
        opts.appName ++ "-" ++ localId ++
          (match opts.stage with
           | some st => "-" ++ st
           | none => ""),
    variableName := localId,
    adoptExisting := if neverAdoptable d.resourceType then false else opts.adopt,
    properties := d.properties }

/-- Modelled from the spec: the registry of §4.2 — an insertion-ordered
key→resource store. -/
abbrev Registry : Type :=
  List (String × NormalizedResource)

/-- Modelled from the spec: `getOrInsert(key, factory)` of §4.2 — return the
existing entry unchanged when `key` is present (the factory is not invoked),
otherwise build the entry, append it and return it. -/
def getOrInsert (reg : Registry) (key : String)
    (factory : Unit → NormalizedResource) : Registry × NormalizedResource :=
  match jsLookup key reg with
  | some r => (reg, r)
  | none =>
    let r := factory ()
    (reg ++ [(key, r)], r)

/-- Modelled from the spec: the key of one declared item (§4.4 steps 1–2). -/
def declKey (d : SpecDecl) : String :=
  makeKey d.resourceType d.rawName

/-- Modelled from the spec: §4.4 normalization of one configuration unit —
each declared item is registered through `getOrInsert` into the shared
registry. -/
def normalizeUnit (opts : SpecOptions) (reg : Registry)
    (unit : List SpecDecl) : Registry :=
  unit.foldl (fun reg d => (getOrInsert reg (declKey d) (fun _ => specResource opts d)).1) reg

/-- How many registry entries carry key `k`. -/
def countKey (reg : Registry) (k : String) : Nat :=
  (reg.filter (fun p => p.1 == k)).length

/-! ## Derived definitions used by the statements -/

/-- The binding emitted by the variables loop for one `(name, value)` entry:
the branch structure of the `config.vars` loop of `transformBindings`. -/
def BindingTransformer.varBinding (k : String) (v : JsValue) : AlchemyBinding :=
  if BindingTransformer.shouldBeSecret k then .secret k
  else
    match v with
    | .str s => .plainText s
    | w => .json w

/-- The declared binding names of the five resource categories processed
before the variables loop (KV, R2, D1, queue producers, durable objects). -/
def fiveCategoryNames (config : WranglerConfig) : List String :=
  ((config.kv_namespaces.getD []).map (·.binding)) ++
  ((config.r2_buckets.getD []).map (·.binding)) ++
  ((config.d1_databases.getD []).map (·.binding)) ++
  (((config.queues.bind (·.producers)).getD []).map (·.binding)) ++
  (((config.durable_objects.bind (·.bindings)).getD []).map (·.name))

/-- The declared binding names of the five resource categories processed
after the variables loop (hyperdrive, AI, analytics engine, browser
rendering, dispatch namespaces). -/
def lateNames (config : WranglerConfig) : List String :=
  ((config.hyperdrive.getD []).map (·.binding)) ++
  ((config.ai.map (·.binding)).toList) ++
  ((config.analytics_engine_datasets.getD []).map (·.binding)) ++
  ((config.browser.map (·.binding)).toList) ++
  ((config.dispatch_namespaces.getD []).map (·.binding))

/-- The declared plain-variable names of a unit. -/
def varNames (config : WranglerConfig) : List String :=
  (config.vars.getD []).map Prod.fst

/-- The binding names scanned by the validator's duplicate check: KV, R2, D1
and queue producers, in that order. -/
def fourCategoryNames (config : WranglerConfig) : List String :=
  ((config.kv_namespaces.getD []).map (·.binding)) ++
  ((config.r2_buckets.getD []).map (·.binding)) ++
  ((config.d1_databases.getD []).map (·.binding)) ++
  (((config.queues.bind (·.producers)).getD []).map (·.binding))

/-- Is this lookup result a resource binding? -/
def isRes (o : Option AlchemyBinding) : Prop :=
  ∃ ref, o = some (AlchemyBinding.resource ref)

/-- The value of the last entry of `l` carrying key `k` (JavaScript
spread/`Map.set` collapse order). -/
def jsLookupLast {β : Type v} (k : String) : List (String × β) → Option β
  | [] => none
  | kv :: rest => (jsLookupLast k rest) <|> (if kv.1 = k then some kv.2 else none)

/-- The binding map produced by `transformCore` for one target
configuration (the single worker's `bindings`). -/
def ConfigTransformer.coreBindings (targetConfig : WranglerConfig)
    (appName : String) (stage : Option String) (adopt preserveNames : Bool) :
    List (String × AlchemyBinding) :=
  (BindingTransformer.transformBindings targetConfig
    (ConfigTransformer.resourceMapOf (ConfigTransformer.resourcesOf targetConfig
      { adopt, preserveNames, stage, appName })) []).1

/-- A configuration with no declarations, used to build concrete inputs. -/
def blankConfig : WranglerConfig :=
  { name := "worker", main := none, compatibility_date := none,
    compatibility_flags := none, kv_namespaces := none, r2_buckets := none,
    d1_databases := none, queues := none, durable_objects := none,
    services := none, hyperdrive := none, ai := none,
    analytics_engine_datasets := none, browser := none,
    dispatch_namespaces := none, vars := none, triggers := none,
    routes := none, observability := none, unsafeSection := none,
    site := none, tail_consumers := none, env := none }

/-- A partial configuration with no overridden fields. -/
def blankPartial : PartialWranglerConfig :=
  { name := none, main := none, compatibility_date := none,
    compatibility_flags := none, kv_namespaces := none, r2_buckets := none,
    d1_databases := none, queues := none, durable_objects := none,
    services := none, hyperdrive := none, ai := none,
    analytics_engine_datasets := none, browser := none,
    dispatch_namespaces := none, vars := none, triggers := none,
    routes := none, observability := none, unsafeSection := none,
    site := none, tail_consumers := none }

/-! ### Concrete inputs for witnesses and counterexamples -/

/-- Options for the registry scenario. -/
def c1DemoOpts : SpecOptions :=
  { appName := "app", stage := none, adopt := true, preserveNames := true }

/-- First unit's declaration of the shared namespace-store. -/
def c1DemoD1 : SpecDecl :=
  { resourceType := "namespace-store", rawName := "CACHE",
    hasExplicitId := true, properties := [("title", "first")] }

/-- Second unit's declaration of the same resource (same key, different
properties). -/
def c1DemoD2 : SpecDecl :=
  { resourceType := "namespace-store", rawName := "Cache",
    hasExplicitId := false, properties := [("title", "second")] }

/-- A registry already holding the first declaration's entry. -/
def c1DemoReg : Registry :=
  [(declKey c1DemoD1, specResource c1DemoOpts c1DemoD1)]

/-- A unit declaring one KV namespace whose binding name is the Kelvin sign
U+212A. -/
def kelvinConfig : WranglerConfig :=
  { blankConfig with
    kv_namespaces := some [{ binding := "\u212A", id := none, preview_id := none }] }

/-- A unit declaring one KV namespace `CACHE`. -/
def c2DemoConfig : WranglerConfig :=
  { blankConfig with
    kv_namespaces := some [{ binding := "CACHE", id := none, preview_id := none }] }

/-- A normalized configuration with no environments. -/
def c3DemoNorm : NormalizedWranglerConfig :=
  { base := blankConfig, environments := [], sourceFormat := .toml,
    hasPreviewIds := false }

/-- Base unit of the environment-merge scenario. -/
def c4Base : WranglerConfig :=
  { blankConfig with
    vars := some [("A", .str "1"), ("B", .str "2")],
    routes := some [.str "r1"] }

/-- Override unit of the environment-merge scenario. -/
def c4Override : PartialWranglerConfig :=
  { blankPartial with
    vars := some [("B", .str "3"), ("C", .str "4")],
    routes := some [.str "r2"] }

/-- A unit with a secret-named, a plain-named and a numeric variable. -/
def c5DemoConfig : WranglerConfig :=
  { blankConfig with
    vars := some [("API_KEY", .str "x"), ("API_URL", .str "u"), ("N", .num 1)] }

/-- A unit with two durable-object bindings sharing the name `A`. -/
def c6DupDOConfig : WranglerConfig :=
  { blankConfig with
    durable_objects := some
      { bindings := some
          [{ name := "A", class_name := "C1", script_name := none,
             environment := none },
           { name := "A", class_name := "C2", script_name := none,
             environment := none }] } }

/-- A unit with a KV namespace and an R2 bucket sharing the name `CACHE`. -/
def c6DupKVConfig : WranglerConfig :=
  { blankConfig with
    kv_namespaces := some [{ binding := "CACHE", id := none, preview_id := none }],
    r2_buckets := some
      [{ binding := "CACHE", bucket_name := "b", preview_bucket_name := none,
         jurisdiction := none }] }

/-- Mapper options for the duplicate-`KV` scenario. -/
def c8DemoOpts : ResourceMappingOptions :=
  { adopt := true, preserveNames := true, stage := none, appName := "app" }

/-- A KV declaration with the generic binding name `KV`. -/
def c8DemoKV : KVNamespaceDecl :=
  { binding := "KV", id := none, preview_id := none }

/-- A configuration whose `name` is the empty string. -/
def c9EmptyNameConfig : WranglerConfig :=
  { blankConfig with name := "" }

/-- A unit declaring a hyperdrive binding and a plain variable under one
name. -/
def c10Config : WranglerConfig :=
  { blankConfig with
    hyperdrive := some [{ binding := "CACHE", id := "h1" }],
    vars := some [("CACHE", .str "v")] }

/-- A resource map resolving the hyperdrive binding of `c10Config`. -/
def c10Ctx : List (String × String) :=
  [("hyperdrive:cache", "hd")]

/-- A unit declaring a KV binding and a plain variable under one name. -/
def c10DemoConfig : WranglerConfig :=
  { blankConfig with
    kv_namespaces := some [{ binding := "CACHE", id := none, preview_id := none }],
    vars := some [("CACHE", .str "v")] }

/-! ## Character-level lemmas -/

lemma char_eq_of_toNat {c d : Char} (h : c.toNat = d.toNat) : c = d :=
  Char.eq_of_val_eq (UInt32.eq_of_toBitVec_eq (BitVec.toNat_eq.mpr h))

lemma char_eq_iff_toNat {c d : Char} : c = d ↔ c.toNat = d.toNat :=
  ⟨fun h => h ▸ rfl, char_eq_of_toNat⟩

lemma toNat_ofNat_of_lt {n : Nat} (h : n < 55296) : (Char.ofNat n).toNat = n := by
  have hv : Nat.isValidChar n := Or.inl h
  rw [Char.ofNat, dif_pos hv]
  simp [Char.ofNatAux, Char.toNat, UInt32.toNat, UInt32.ofNat', BitVec.toNat_ofNatLt]

lemma isIdChar_iff {c : Char} :
    isIdChar c = true ↔
      (97 ≤ c.toNat ∧ c.toNat ≤ 122) ∨ (65 ≤ c.toNat ∧ c.toNat ≤ 90) ∨
        (48 ≤ c.toNat ∧ c.toNat ≤ 57) ∨ c.toNat = 95 := by
  have h95 : ('_').toNat = 95 := rfl
  simp only [isIdChar, Bool.or_eq_true, decide_eq_true_eq, Bool.and_eq_true,
    beq_iff_eq, char_eq_iff_toNat, h95]
  tauto

lemma jsLowerChar_of_upper {c : Char} (h1 : 65 ≤ c.toNat) (h2 : c.toNat ≤ 90) :
    jsLowerChar c = [Char.ofNat (c.toNat + 32)] := by
  simp only [jsLowerChar, decide_eq_true_eq]
  rw [if_pos]
  simp only [Bool.and_eq_true, decide_eq_true_eq]
  exact ⟨h1, h2⟩

lemma jsLowerChar_of_other {c : Char} (h : ¬(65 ≤ c.toNat ∧ c.toNat ≤ 90))
    (h1 : c ≠ '\u212A') (h2 : c ≠ '\u0130') : jsLowerChar c = [c] := by
  simp only [jsLowerChar]
  rw [if_neg, if_neg h1, if_neg h2]
  simp only [Bool.and_eq_true, decide_eq_true_eq]
  exact h

/-- Replacing outside-class characters by `_` commutes with JavaScript
lowercasing on every character other than U+212A and U+0130. -/
lemma jsLowerChar_replace_comm {c : Char} (h1 : c ≠ '\u212A') (h2 : c ≠ '\u0130') :
    jsLowerChar (if isIdChar c then c else '_') =
      (jsLowerChar c).map (fun d => if isIdChar d then d else '_') := by
  by_cases hu : 65 ≤ c.toNat ∧ c.toNat ≤ 90
  · have hid : isIdChar c = true := isIdChar_iff.mpr (Or.inr (Or.inl hu))
    have hlow : (Char.ofNat (c.toNat + 32)).toNat = c.toNat + 32 :=
      toNat_ofNat_of_lt (by omega)
    have hid2 : isIdChar (Char.ofNat (c.toNat + 32)) = true :=
      isIdChar_iff.mpr (Or.inl (by omega))
    rw [if_pos hid, jsLowerChar_of_upper hu.1 hu.2]
    simp [hid2]
  · by_cases hid : isIdChar c = true
    · rw [if_pos hid, jsLowerChar_of_other hu h1 h2]
      simp [hid]
    · have hund : jsLowerChar '_' = ['_'] := rfl
      rw [if_neg hid, hund, jsLowerChar_of_other hu h1 h2]
      simp [hid]

/-- On every string free of U+212A and U+0130 the two independently
implemented sanitization routines agree: replace-then-lowercase (the binding
transformer) equals lowercase-then-replace (the resource mapper). -/
lemma sanitize_agree {s : String}
    (h : ∀ c ∈ s.data, c ≠ '\u212A' ∧ c ≠ '\u0130') :
    BindingTransformer.sanitizeId s = ResourceMapper.sanitizeId (jsToLowerCase s) := by
  show jsToLowerCase (replaceNonId s) = replaceNonId (jsToLowerCase s)
  have hdata : (replaceNonId s).data = s.data.map (fun c => if isIdChar c then c else '_') := rfl
  have hdata2 : (jsToLowerCase s).data = (s.data.map jsLowerChar).flatten := rfl
  simp only [jsToLowerCase, replaceNonId, hdata, hdata2]
  apply congrArg String.mk
  rw [List.map_map, List.map_flatten, List.map_map]
  apply congrArg List.flatten
  apply List.map_congr_left
  intro c hc
  exact jsLowerChar_replace_comm (h c hc).1 (h c hc).2

/-! ## Association-list lemmas -/

lemma jsLookup_jsSet_self {β : Type v} (m : List (String × β)) (k : String)
    (v : β) : jsLookup k (jsSet m k v) = some v := by
  induction m with
  | nil => simp [jsSet, jsLookup]
  | cons kv rest ih =>
    obtain ⟨k2, v2⟩ := kv
    by_cases h : k2 = k
    · simp [jsSet, h, jsLookup]
    · simp [jsSet, h, jsLookup, ih]

lemma jsLookup_jsSet_ne {β : Type v} (m : List (String × β)) {k k2 : String}
    (v : β) (h : k2 ≠ k) : jsLookup k (jsSet m k2 v) = jsLookup k m := by
  induction m with
  | nil => simp [jsSet, jsLookup, h]
  | cons kv rest ih =>
    obtain ⟨k3, v3⟩ := kv
    by_cases h3 : k3 = k2
    · subst h3
      simp [jsSet, jsLookup, h]
    · simp only [jsSet, if_neg h3]
      by_cases hk : k3 = k
      · simp [jsLookup, hk]
      · simp [jsLookup, hk, ih]

lemma jsLookup_jsSet_isSome {β : Type v} (m : List (String × β))
    {k : String} (k2 : String) (v : β) (h : (jsLookup k m).isSome) :
    (jsLookup k (jsSet m k2 v)).isSome := by
  by_cases hk : k2 = k
  · subst hk
    simp [jsLookup_jsSet_self]
  · rw [jsLookup_jsSet_ne m v hk]
    exact h

lemma jsLookup_append {β : Type v} (m1 m2 : List (String × β)) (k : String) :
    jsLookup k (m1 ++ m2) = ((jsLookup k m1) <|> (jsLookup k m2)) := by
  induction m1 with
  | nil => simp [jsLookup]
  | cons kv rest ih =>
    by_cases h : kv.1 = k
    · simp [jsLookup, h]
    · simp [jsLookup, h, ih]

lemma jsLookup_eq_none_iff {β : Type v} {m : List (String × β)} {k : String} :
    jsLookup k m = none ↔ k ∉ m.map Prod.fst := by
  induction m with
  | nil => simp [jsLookup]
  | cons kv rest ih =>
    by_cases h : kv.1 = k
    · simp [jsLookup, h]
    · simp [jsLookup, h, ih, Ne.symm h]

lemma foldl_jsSet_lookup {β : Type v} (l : List (String × β))
    (m0 : List (String × β)) (k : String) :
    jsLookup k (l.foldl (fun m kv => jsSet m kv.1 kv.2) m0) =
      ((jsLookupLast k l) <|> jsLookup k m0) := by
  induction l generalizing m0 with
  | nil => simp [jsLookupLast]
  | cons kv tl ih =>
    simp only [List.foldl_cons, jsLookupLast]
    rw [ih]
    by_cases h : kv.1 = k
    · rw [if_pos h, h, jsLookup_jsSet_self]
      rcases hx : jsLookupLast k tl with _ | w <;> simp [hx]
    · rw [if_neg h, jsLookup_jsSet_ne m0 kv.2 h]
      rcases hx : jsLookupLast k tl with _ | w <;> simp [hx]

lemma jsLookupLast_append {β : Type v} (l1 l2 : List (String × β))
    (k : String) :
    jsLookupLast k (l1 ++ l2) = ((jsLookupLast k l2) <|> (jsLookupLast k l1)) := by
  induction l1 with
  | nil => simp [jsLookupLast]
  | cons kv tl ih =>
    simp only [List.cons_append, jsLookupLast]
    rw [show tl.append l2 = tl ++ l2 from rfl, ih]
    rcases hx : jsLookupLast k l2 with _ | w <;> simp

lemma jsLookupLast_eq_none {β : Type v} {l : List (String × β)} {k : String}
    (h : k ∉ l.map Prod.fst) : jsLookupLast k l = none := by
  induction l with
  | nil => rfl
  | cons kv tl ih =>
    simp only [List.map_cons, List.mem_cons] at h
    push_neg at h
    simp [jsLookupLast, ih h.2, Ne.symm h.1]

lemma jsLookupLast_eq_jsLookup {β : Type v} {l : List (String × β)}
    {k : String} (hnd : (l.map Prod.fst).Nodup) :
    jsLookupLast k l = jsLookup k l := by
  induction l with
  | nil => rfl
  | cons kv tl ih =>
    simp only [List.map_cons, List.nodup_cons] at hnd
    by_cases h : kv.1 = k
    · subst h
      rw [jsLookupLast, jsLookupLast_eq_none hnd.1]
      simp [jsLookup]
    · simp [jsLookupLast, jsLookup, h, ih hnd.2]

/-! ## Binding-transformer loop lemmas -/

lemma resourceLoop_lookup_notMem {res : List (String × String)} {code : String}
    {names : List String} {b : List (String × AlchemyBinding)} {k : String}
    (h : k ∉ names) :
    jsLookup k (BindingTransformer.resourceLoop res code names b) = jsLookup k b := by
  induction names generalizing b with
  | nil => rfl
  | cons n tl ih =>
    simp only [List.mem_cons] at h
    push_neg at h
    simp only [BindingTransformer.resourceLoop, List.foldl_cons]
    rw [show ∀ b2, List.foldl _ b2 tl =
      BindingTransformer.resourceLoop res code tl b2 from fun _ => rfl]
    rcases jsLookup (code ++ ":" ++ BindingTransformer.sanitizeId n) res with _ | v
    · exact ih h.2
    · rw [ih h.2]
      exact jsLookup_jsSet_ne b _ (Ne.symm h.1)

lemma resourceLoop_isRes {res : List (String × String)} {code : String}
    {names : List String} {b : List (String × AlchemyBinding)} {k : String}
    (h : isRes (jsLookup k b)) :
    isRes (jsLookup k (BindingTransformer.resourceLoop res code names b)) := by
  induction names generalizing b with
  | nil => exact h
  | cons n tl ih =>
    simp only [BindingTransformer.resourceLoop, List.foldl_cons]
    rw [show ∀ b2, List.foldl _ b2 tl =
      BindingTransformer.resourceLoop res code tl b2 from fun _ => rfl]
    rcases jsLookup (code ++ ":" ++ BindingTransformer.sanitizeId n) res with _ | v
    · exact ih h
    · apply ih
      by_cases hn : n = k
      · subst hn
        rw [jsLookup_jsSet_self]
        exact ⟨v, rfl⟩
      · rw [jsLookup_jsSet_ne b _ hn]
        exact h

lemma resourceLoop_isRes_of_mem {res : List (String × String)} {code : String}
    {names : List String} {b : List (String × AlchemyBinding)} {k : String}
    (hm : k ∈ names)
    (hs : (jsLookup (code ++ ":" ++ BindingTransformer.sanitizeId k) res).isSome) :
    isRes (jsLookup k (BindingTransformer.resourceLoop res code names b)) := by
  induction names generalizing b with
  | nil => cases hm
  | cons n tl ih =>
    simp only [BindingTransformer.resourceLoop, List.foldl_cons]
    rw [show ∀ b2, List.foldl _ b2 tl =
      BindingTransformer.resourceLoop res code tl b2 from fun _ => rfl]
    rcases List.mem_cons.mp hm with hn | htl
    · subst hn
      obtain ⟨v, hv⟩ := Option.isSome_iff_exists.mp hs
      rw [hv]
      apply resourceLoop_isRes
      rw [jsLookup_jsSet_self]
      exact ⟨v, rfl⟩
    · rcases jsLookup (code ++ ":" ++ BindingTransformer.sanitizeId n) res with _ | v
      · exact ih htl
      · exact ih htl

lemma varsLoop_cons (kv : String × JsValue) (tl : List (String × JsValue))
    (b : List (String × AlchemyBinding)) (s : List String) :
    BindingTransformer.varsLoop (kv :: tl) b s =
      BindingTransformer.varsLoop tl
        (jsSet b kv.1 (BindingTransformer.varBinding kv.1 kv.2))
        (if BindingTransformer.shouldBeSecret kv.1 then jsSetAdd s kv.1 else s) := by
  simp only [BindingTransformer.varsLoop, List.foldl_cons]
  congr 1
  by_cases hsec : BindingTransformer.shouldBeSecret kv.1
  · simp [hsec, BindingTransformer.varBinding]
  · rcases hv : kv.2 with s2 | n2 | b2 <;>
      simp [hsec, BindingTransformer.varBinding, hv]

lemma varsLoop_lookup_notMem {vars : List (String × JsValue)}
    {b : List (String × AlchemyBinding)} {s : List String} {k : String}
    (h : k ∉ vars.map Prod.fst) :
    jsLookup k (BindingTransformer.varsLoop vars b s).1 = jsLookup k b := by
  induction vars generalizing b s with
  | nil => rfl
  | cons kv tl ih =>
    simp only [List.map_cons, List.mem_cons] at h
    push_neg at h
    rw [varsLoop_cons, ih h.2]
    exact jsLookup_jsSet_ne b _ (Ne.symm h.1)

lemma varsLoop_lookup_mem {vars : List (String × JsValue)}
    {b : List (String × AlchemyBinding)} {s : List String} {k : String}
    {v : JsValue} (hnd : (vars.map Prod.fst).Nodup) (hm : (k, v) ∈ vars) :
    jsLookup k (BindingTransformer.varsLoop vars b s).1 =
      some (BindingTransformer.varBinding k v) := by
  induction vars generalizing b s with
  | nil => cases hm
  | cons kv tl ih =>
    simp only [List.map_cons, List.nodup_cons] at hnd
    rw [varsLoop_cons]
    rcases List.mem_cons.mp hm with hk | htl
    · obtain ⟨k1, v1⟩ := kv
      obtain ⟨hk1, hv1⟩ := Prod.mk.injEq .. ▸ hk.symm
      subst hk1
      subst hv1
      rw [varsLoop_lookup_notMem hnd.1, jsLookup_jsSet_self]
    · exact ih hnd.2 htl

/-! ## Mapper and lookup-map lemmas -/

lemma jsMapIdx_getElem? {α : Type u} {β : Type v} (f : Nat → α → β)
    (l : List α) (i0 i : Nat) :
    (jsMapIdx f i0 l)[i]? = (l[i]?).map (f (i0 + i)) := by
  induction l generalizing i0 i with
  | nil => simp [jsMapIdx]
  | cons a tl ih =>
    cases i with
    | zero => simp [jsMapIdx]
    | succ n =>
      simp only [jsMapIdx, List.getElem?_cons_succ, ih (i0 + 1) n]
      rw [show i0 + 1 + n = i0 + (n + 1) from by omega]

lemma jsMapIdx_mem {α : Type u} {β : Type v} (f : Nat → α → β) {l : List α}
    {a : α} (h : a ∈ l) (i0 : Nat) : ∃ j, f j a ∈ jsMapIdx f i0 l := by
  induction l generalizing i0 with
  | nil => cases h
  | cons hd tl ih =>
    rcases List.mem_cons.mp h with rfl | htl
    · exact ⟨i0, List.mem_cons_self _ _⟩
    · obtain ⟨j, hj⟩ := ih htl (i0 + 1)
      exact ⟨j, List.mem_cons_of_mem _ hj⟩

lemma resourceMapOf_go {key : String} {resources : List AlchemyResource} :
    ∀ m0, ((jsLookup key m0).isSome ∨
        ∃ r ∈ resources, ConfigTransformer.resourceKeyOf r = key) →
      (jsLookup key (resources.foldl
        (fun m r => jsSet m (ConfigTransformer.resourceKeyOf r) r.variableName)
        m0)).isSome := by
  induction resources with
  | nil =>
    intro m0 h
    rcases h with h | ⟨r, hr, _⟩
    · exact h
    · cases hr
  | cons r tl ih =>
    intro m0 h
    simp only [List.foldl_cons]
    apply ih
    rcases h with h | ⟨r2, hr2, hk⟩
    · exact Or.inl (jsLookup_jsSet_isSome _ _ _ h)
    · rcases List.mem_cons.mp hr2 with rfl | htl
      · left
        rw [← hk, jsLookup_jsSet_self]
        rfl
      · exact Or.inr ⟨r2, htl, hk⟩

lemma resourceMapOf_isSome {resources : List AlchemyResource} {key : String}
    (h : ∃ r ∈ resources, ConfigTransformer.resourceKeyOf r = key) :
    (jsLookup key (ConfigTransformer.resourceMapOf resources)).isSome :=
  resourceMapOf_go [] (Or.inr h)

lemma mapKVNamespaces_mem_key {opts : ResourceMappingOptions}
    {l : List KVNamespaceDecl} {kv : KVNamespaceDecl} (h : kv ∈ l) :
    ∃ r ∈ ResourceMapper.mapKVNamespaces opts (some l),
      ConfigTransformer.resourceKeyOf r =
        "kv" ++ ":" ++ ResourceMapper.sanitizeId (jsToLowerCase kv.binding) := by
  have hne : l.isEmpty = false := by
    cases l
    · cases h
    · rfl
  simp only [ResourceMapper.mapKVNamespaces, hne, Bool.false_eq_true, if_neg,
    Bool.not_eq_true]
  obtain ⟨j, hj⟩ := jsMapIdx_mem _ h 0
  exact ⟨_, hj, rfl⟩

lemma mapR2Buckets_mem_key {opts : ResourceMappingOptions}
    {l : List R2BucketDecl} {bucket : R2BucketDecl} (h : bucket ∈ l) :
    ∃ r ∈ ResourceMapper.mapR2Buckets opts (some l),
      ConfigTransformer.resourceKeyOf r =
        "r2" ++ ":" ++ ResourceMapper.sanitizeId (jsToLowerCase bucket.binding) := by
  have hne : l.isEmpty = false := by
    cases l
    · cases h
    · rfl
  simp only [ResourceMapper.mapR2Buckets, hne, Bool.false_eq_true, if_neg,
    Bool.not_eq_true]
  obtain ⟨j, hj⟩ := jsMapIdx_mem _ h 0
  exact ⟨_, hj, rfl⟩

lemma mapD1Databases_mem_key {opts : ResourceMappingOptions}
    {l : List D1DatabaseDecl} {db : D1DatabaseDecl} (h : db ∈ l) :
    ∃ r ∈ ResourceMapper.mapD1Databases opts (some l),
      ConfigTransformer.resourceKeyOf r =
        "d1" ++ ":" ++ ResourceMapper.sanitizeId (jsToLowerCase db.binding) := by
  have hne : l.isEmpty = false := by
    cases l
    · cases h
    · rfl
  simp only [ResourceMapper.mapD1Databases, hne, Bool.false_eq_true, if_neg,
    Bool.not_eq_true]
  obtain ⟨j, hj⟩ := jsMapIdx_mem _ h 0
  exact ⟨_, hj, rfl⟩

lemma mapQueues_mem_key {opts : ResourceMappingOptions} {q : QueuesDecl}
    {l : List QueueProducerDecl} {queue : QueueProducerDecl}
    (hp : q.producers = some l) (h : queue ∈ l) :
    ∃ r ∈ ResourceMapper.mapQueues opts (some q),
      ConfigTransformer.resourceKeyOf r =
        "queue" ++ ":" ++ ResourceMapper.sanitizeId (jsToLowerCase queue.binding) := by
  have hne : l.isEmpty = false := by
    cases l
    · cases h
    · rfl
  simp only [ResourceMapper.mapQueues, Option.bind, hp, hne,
    Bool.false_eq_true, if_neg, Bool.not_eq_true]
  obtain ⟨j, hj⟩ := jsMapIdx_mem _ h 0
  exact ⟨_, hj, rfl⟩

lemma mapDurableObjects_mem_key {opts : ResourceMappingOptions}
    {dob : DurableObjectsDecl} {l : List DurableObjectBindingDecl}
    {do_ : DurableObjectBindingDecl} (hp : dob.bindings = some l)
    (h : do_ ∈ l) :
    ∃ r ∈ ResourceMapper.mapDurableObjects opts (some dob),
      ConfigTransformer.resourceKeyOf r =
        "durableobject" ++ ":" ++
          ResourceMapper.sanitizeId (jsToLowerCase do_.name) := by
  have hne : l.isEmpty = false := by
    cases l
    · cases h
    · rfl
  simp only [ResourceMapper.mapDurableObjects, Option.bind, hp, hne,
    Bool.false_eq_true, if_neg, Bool.not_eq_true]
  obtain ⟨j, hj⟩ := jsMapIdx_mem _ h 0
  exact ⟨_, hj, rfl⟩

/-! ## Registry lemmas -/

lemma getOrInsert_lookup_some {reg : Registry} {k : String}
    {r : NormalizedResource} (f : Unit → NormalizedResource)
    (h : jsLookup k reg = some r) : getOrInsert reg k f = (reg, r) := by
  simp [getOrInsert, h]

lemma normalizeUnit_lookup (opts : SpecOptions) (u : List SpecDecl) :
    ∀ (reg : Registry) (k : String),
      jsLookup k (normalizeUnit opts reg u) =
        ((jsLookup k reg) <|>
          ((u.find? (fun d => declKey d == k)).map (specResource opts))) := by
  induction u with
  | nil =>
    intro reg k
    cases hx : jsLookup k reg <;> simp [normalizeUnit, hx]
  | cons d tl ih =>
    intro reg k
    have hrw : normalizeUnit opts reg (d :: tl) =
        normalizeUnit opts
          (getOrInsert reg (declKey d) fun _ => specResource opts d).1 tl := rfl
    rw [hrw, ih]
    by_cases hk : declKey d = k
    · rw [List.find?_cons_of_pos _ (by simp [hk])]
      cases hreg : jsLookup k reg with
      | none =>
        have hnone : jsLookup (declKey d) reg = none := by rw [hk, hreg]
        simp only [getOrInsert, hnone]
        rw [jsLookup_append]
        simp [hreg, jsLookup, hk]
      | some r =>
        have hsome : jsLookup (declKey d) reg = some r := by rw [hk, hreg]
        simp [getOrInsert, hsome, hreg]
    · rw [List.find?_cons_of_neg _ (by simp [hk])]
      cases hreg : jsLookup (declKey d) reg with
      | none =>
        simp only [getOrInsert, hreg]
        rw [jsLookup_append]
        simp [jsLookup, hk]
      | some r => simp [getOrInsert, hreg]

lemma getOrInsert_nodup {reg : Registry} {k : String}
    (f : Unit → NormalizedResource) (h : (reg.map Prod.fst).Nodup) :
    (((getOrInsert reg k f).1).map Prod.fst).Nodup := by
  cases hreg : jsLookup k reg with
  | none =>
    have hnot : k ∉ reg.map Prod.fst := jsLookup_eq_none_iff.mp hreg
    simp only [getOrInsert, hreg, List.map_append, List.map_cons, List.map_nil]
    rw [List.nodup_append]
    refine ⟨h, List.nodup_singleton _, ?_⟩
    intro a ha
    simp only [List.mem_singleton]
    intro he
    exact hnot (he ▸ ha)
  | some r => simpa [getOrInsert, hreg] using h

lemma normalizeUnit_nodup (opts : SpecOptions) (u : List SpecDecl) :
    ∀ {reg : Registry}, (reg.map Prod.fst).Nodup →
      ((normalizeUnit opts reg u).map Prod.fst).Nodup := by
  induction u with
  | nil => exact fun h => h
  | cons d tl ih =>
    intro reg h
    exact ih (getOrInsert_nodup _ h)

lemma countKey_eq_zero {reg : Registry} {k : String}
    (h : k ∉ reg.map Prod.fst) : countKey reg k = 0 := by
  induction reg with
  | nil => rfl
  | cons kv tl ih =>
    obtain ⟨k1, v1⟩ := kv
    simp only [List.map_cons, List.mem_cons] at h
    push_neg at h
    have hbeq : (k1 == k) = false := by
      rw [beq_eq_false_iff_ne]
      exact Ne.symm h.1
    rw [countKey] at ih ⊢
    simp only [List.filter_cons, hbeq, Bool.false_eq_true, if_neg,
      Bool.not_eq_true]
    exact ih h.2

lemma countKey_eq_one {reg : Registry} {k : String} {r : NormalizedResource}
    (hnd : (reg.map Prod.fst).Nodup) (h : jsLookup k reg = some r) :
    countKey reg k = 1 := by
  induction reg with
  | nil => cases h
  | cons kv tl ih =>
    obtain ⟨k1, v1⟩ := kv
    simp only [List.map_cons, List.nodup_cons] at hnd
    by_cases hk : k1 = k
    · subst hk
      have htl : countKey tl k1 = 0 := countKey_eq_zero hnd.1
      rw [countKey] at htl ⊢
      simp only [List.filter_cons, beq_self_eq_true, if_pos, List.length_cons]
      omega
    · have hbeq : (k1 == k) = false := by
        rw [beq_eq_false_iff_ne]
        exact hk
      simp only [jsLookup, if_neg hk] at h
      have h2 := ih hnd.2 h
      rw [countKey] at h2 ⊢
      simp only [List.filter_cons, hbeq, Bool.false_eq_true, if_neg,
        Bool.not_eq_true]
      exact h2

/-! ## Validator lemmas -/

lemma addBinding_fold_mono {l : List String} :
    ∀ {seen errs : List String} {e : String}, e ∈ errs →
      e ∈ (l.foldl addBindingStep (seen, errs)).2 := by
  induction l with
  | nil => exact fun h => h
  | cons n tl ih =>
    intro seen errs e h
    simp only [List.foldl_cons]
    apply ih
    simp only [addBindingStep]
    by_cases hn : n ∈ seen
    · simp only [if_pos hn]
      exact List.mem_append_left _ h
    · simp only [if_neg hn]
      exact h

lemma addBinding_fold_seen {l : List String} :
    ∀ {seen errs : List String} {n : String}, n ∈ seen → n ∈ l →
      ("Duplicate binding name: " ++ n) ∈
        (l.foldl addBindingStep (seen, errs)).2 := by
  induction l with
  | nil =>
    intro _ _ _ _ h
    cases h
  | cons m tl ih =>
    intro seen errs n hseen hl
    simp only [List.foldl_cons]
    rcases List.mem_cons.mp hl with rfl | htl
    · apply addBinding_fold_mono
      simp [addBindingStep, hseen]
    · apply ih _ htl
      simp only [addBindingStep, jsSetAdd]
      by_cases hm : m ∈ seen
      · simpa [hm] using hseen
      · simp only [if_neg hm]
        exact List.mem_append_left _ hseen

lemma addBinding_fold_dup {l : List String} :
    ∀ {seen errs : List String} {n : String}, 2 ≤ l.count n →
      ("Duplicate binding name: " ++ n) ∈
        (l.foldl addBindingStep (seen, errs)).2 := by
  induction l with
  | nil =>
    intro _ _ n h
    simp [List.count_nil] at h
  | cons m tl ih =>
    intro seen errs n h
    by_cases hm : m = n
    · subst hm
      rw [List.count_cons_self] at h
      have hmem : m ∈ tl := List.count_pos_iff.mp (by omega)
      simp only [List.foldl_cons]
      apply addBinding_fold_seen _ hmem
      simp [addBindingStep, jsSetAdd]
      by_cases hs : m ∈ seen <;> simp [hs]
    · rw [List.count_cons_of_ne (Ne.symm hm)] at h
      simp only [List.foldl_cons]
      exact ih h

/-! ## Merge lemmas -/

lemma spreadMergeVars_lookup {b o : List (String × JsValue)} {k : String}
    (hb : (b.map Prod.fst).Nodup) (ho : (o.map Prod.fst).Nodup) :
    jsLookup k (spreadMergeVars b o) = ((jsLookup k o) <|> (jsLookup k b)) := by
  unfold spreadMergeVars
  rw [foldl_jsSet_lookup, jsLookupLast_append, jsLookupLast_eq_jsLookup ho,
    jsLookupLast_eq_jsLookup hb]
  rcases jsLookup k o with _ | w <;> rcases jsLookup k b with _ | w2 <;>
    simp [jsLookup]

/-! ## Transformer assembly lemmas -/

lemma transformBindings_eq (config : WranglerConfig)
    (res : List (String × String)) (s0 : List String) :
    (BindingTransformer.transformBindings config res s0).1 =
      BindingTransformer.resourceLoop res "dispatch"
        ((config.dispatch_namespaces.getD []).map (·.binding))
        (BindingTransformer.resourceLoop res "browserrendering"
          ((config.browser.map (·.binding)).toList)
          (BindingTransformer.resourceLoop res "analyticsenginedataset"
            ((config.analytics_engine_datasets.getD []).map (·.binding))
            (BindingTransformer.resourceLoop res "ai"
              ((config.ai.map (·.binding)).toList)
              (BindingTransformer.resourceLoop res "hyperdrive"
                ((config.hyperdrive.getD []).map (·.binding))
                (BindingTransformer.varsLoop (config.vars.getD [])
                  (BindingTransformer.resourceLoop res "durableobject"
                    (((config.durable_objects.bind (·.bindings)).getD []).map (·.name))
                    (BindingTransformer.resourceLoop res "queue"
                      (((config.queues.bind (·.producers)).getD []).map (·.binding))
                      (BindingTransformer.resourceLoop res "d1"
                        ((config.d1_databases.getD []).map (·.binding))
                        (BindingTransformer.resourceLoop res "r2"
                          ((config.r2_buckets.getD []).map (·.binding))
                          (BindingTransformer.resourceLoop res "kv"
                            ((config.kv_namespaces.getD []).map (·.binding))
                            []))))) s0).1)))) := rfl

lemma transformCore_workers (targetConfig : WranglerConfig) (appName : String)
    (stage : Option String) (adopt preserveNames : Bool) :
    (ConfigTransformer.transformCore targetConfig appName stage adopt
        preserveNames).workers.map (·.bindings) =
      [ConfigTransformer.coreBindings targetConfig appName stage adopt
        preserveNames] := rfl

/-- The final binding of a plain variable: with duplicate-free variable
names and a name untouched by the five post-variables resource loops, the
transformer's output at that name is the variables-loop classification. -/
lemma transformBindings_lookup_var {config : WranglerConfig}
    {res : List (String × String)} {s0 : List String} {k : String}
    {v : JsValue} (hnd : ((config.vars.getD []).map Prod.fst).Nodup)
    (hm : (k, v) ∈ config.vars.getD []) (hlate : k ∉ lateNames config) :
    jsLookup k (BindingTransformer.transformBindings config res s0).1 =
      some (BindingTransformer.varBinding k v) := by
  simp only [lateNames, List.mem_append] at hlate
  push_neg at hlate
  rw [transformBindings_eq,
    resourceLoop_lookup_notMem hlate.2,
    resourceLoop_lookup_notMem hlate.1.2,
    resourceLoop_lookup_notMem hlate.1.1.2,
    resourceLoop_lookup_notMem hlate.1.1.1.2,
    resourceLoop_lookup_notMem hlate.1.1.1.1]
  exact varsLoop_lookup_mem hnd hm

/-! ## Per-category key-resolution lemmas -/

lemma kvKeyResolves {config : WranglerConfig} {opts : ResourceMappingOptions}
    {b : String} (hb : b ∈ (config.kv_namespaces.getD []).map (·.binding))
    (hsan : BindingTransformer.sanitizeId b =
      ResourceMapper.sanitizeId (jsToLowerCase b)) :
    (jsLookup ("kv" ++ ":" ++ BindingTransformer.sanitizeId b)
      (ConfigTransformer.resourceMapOf
        (ConfigTransformer.resourcesOf config opts))).isSome := by
  rcases hkvs : config.kv_namespaces with _ | l
  · rw [hkvs] at hb
    simp at hb
  · rw [hkvs] at hb
    simp only [Option.getD_some] at hb
    obtain ⟨kv, hkv, hbind⟩ := List.mem_map.mp hb
    obtain ⟨r, hr, hkey⟩ := @mapKVNamespaces_mem_key opts _ _ hkv
    apply resourceMapOf_isSome
    refine ⟨r, ?_, ?_⟩
    · simp only [ConfigTransformer.resourcesOf, hkvs, List.mem_append]
      exact Or.inl (Or.inl (Or.inl (Or.inl hr)))
    · rw [hkey, hbind, hsan]

lemma r2KeyResolves {config : WranglerConfig} {opts : ResourceMappingOptions}
    {b : String} (hb : b ∈ (config.r2_buckets.getD []).map (·.binding))
    (hsan : BindingTransformer.sanitizeId b =
      ResourceMapper.sanitizeId (jsToLowerCase b)) :
    (jsLookup ("r2" ++ ":" ++ BindingTransformer.sanitizeId b)
      (ConfigTransformer.resourceMapOf
        (ConfigTransformer.resourcesOf config opts))).isSome := by
  rcases hr2s : config.r2_buckets with _ | l
  · rw [hr2s] at hb
    simp at hb
  · rw [hr2s] at hb
    simp only [Option.getD_some] at hb
    obtain ⟨bucket, hbk, hbind⟩ := List.mem_map.mp hb
    obtain ⟨r, hr, hkey⟩ := @mapR2Buckets_mem_key opts _ _ hbk
    apply resourceMapOf_isSome
    refine ⟨r, ?_, ?_⟩
    · simp only [ConfigTransformer.resourcesOf, hr2s, List.mem_append]
      exact Or.inl (Or.inl (Or.inl (Or.inr hr)))
    · rw [hkey, hbind, hsan]

lemma d1KeyResolves {config : WranglerConfig} {opts : ResourceMappingOptions}
    {b : String} (hb : b ∈ (config.d1_databases.getD []).map (·.binding))
    (hsan : BindingTransformer.sanitizeId b =
      ResourceMapper.sanitizeId (jsToLowerCase b)) :
    (jsLookup ("d1" ++ ":" ++ BindingTransformer.sanitizeId b)
      (ConfigTransformer.resourceMapOf
        (ConfigTransformer.resourcesOf config opts))).isSome := by
  rcases hd1s : config.d1_databases with _ | l
  · rw [hd1s] at hb
    simp at hb
  · rw [hd1s] at hb
    simp only [Option.getD_some] at hb
    obtain ⟨db, hdb, hbind⟩ := List.mem_map.mp hb
    obtain ⟨r, hr, hkey⟩ := @mapD1Databases_mem_key opts _ _ hdb
    apply resourceMapOf_isSome
    refine ⟨r, ?_, ?_⟩
    · simp only [ConfigTransformer.resourcesOf, hd1s, List.mem_append]
      exact Or.inl (Or.inl (Or.inr hr))
    · rw [hkey, hbind, hsan]

lemma queueKeyResolves {config : WranglerConfig} {opts : ResourceMappingOptions}
    {b : String}
    (hb : b ∈ (((config.queues.bind (·.producers)).getD []).map (·.binding)))
    (hsan : BindingTransformer.sanitizeId b =
      ResourceMapper.sanitizeId (jsToLowerCase b)) :
    (jsLookup ("queue" ++ ":" ++ BindingTransformer.sanitizeId b)
      (ConfigTransformer.resourceMapOf
        (ConfigTransformer.resourcesOf config opts))).isSome := by
  rcases hqs : config.queues with _ | q
  · rw [hqs] at hb
    simp at hb
  · rw [hqs] at hb
    rcases hps : q.producers with _ | l
    · rw [show (some q).bind (·.producers) = q.producers from rfl, hps] at hb
      simp at hb
    · rw [show (some q).bind (·.producers) = q.producers from rfl, hps] at hb
      simp only [Option.getD_some] at hb
      obtain ⟨queue, hq, hbind⟩ := List.mem_map.mp hb
      obtain ⟨r, hr, hkey⟩ := @mapQueues_mem_key opts q _ _ hps hq
      apply resourceMapOf_isSome
      refine ⟨r, ?_, ?_⟩
      · simp only [ConfigTransformer.resourcesOf, hqs, List.mem_append]
        exact Or.inl (Or.inr hr)
      · rw [hkey, hbind, hsan]

lemma doKeyResolves {config : WranglerConfig} {opts : ResourceMappingOptions}
    {b : String}
    (hb : b ∈ (((config.durable_objects.bind (·.bindings)).getD []).map (·.name)))
    (hsan : BindingTransformer.sanitizeId b =
      ResourceMapper.sanitizeId (jsToLowerCase b)) :
    (jsLookup ("durableobject" ++ ":" ++ BindingTransformer.sanitizeId b)
      (ConfigTransformer.resourceMapOf
        (ConfigTransformer.resourcesOf config opts))).isSome := by
  rcases hds : config.durable_objects with _ | dob
  · rw [hds] at hb
    simp at hb
  · rw [hds] at hb
    rcases hbs : dob.bindings with _ | l
    · rw [show (some dob).bind (·.bindings) = dob.bindings from rfl, hbs] at hb
      simp at hb
    · rw [show (some dob).bind (·.bindings) = dob.bindings from rfl, hbs] at hb
      simp only [Option.getD_some] at hb
      obtain ⟨do_, hdo, hname⟩ := List.mem_map.mp hb
      obtain ⟨r, hr, hkey⟩ := @mapDurableObjects_mem_key opts dob _ _ hbs hdo
      apply resourceMapOf_isSome
      refine ⟨r, ?_, ?_⟩
      · simp only [ConfigTransformer.resourcesOf, hds, List.mem_append]
        exact Or.inr hr
      · rw [hkey, hname, hsan]


/-- Claim C2 (amended): on every binding name containing neither U+212A
(KELVIN SIGN) nor U+0130 (LATIN CAPITAL LETTER I WITH DOT ABOVE) — the only
code points whose JavaScript lowercase mapping crosses into ASCII — the
binding transformer's sanitize-then-lowercase routine computes the same id
as the resource mapper's lowercase-then-sanitize routine, and every binding
of the five implemented resource categories declared under such a name (and
not shadowed by a same-named plain variable) appears in the transformer's
binding map as a resource binding.  On names containing those two code
points the two routines differ and the binding is silently dropped (see the
counterexample). -/
theorem c2_key_schemes_agree_on_clean_names :
    (∀ s : String, (∀ c ∈ s.data, c ≠ '\u212A' ∧ c ≠ '\u0130') →
      BindingTransformer.sanitizeId s =
        ResourceMapper.sanitizeId (jsToLowerCase s)) ∧
    (∀ (config : WranglerConfig) (appName : String) (stage : Option String)
        (adopt preserveNames : Bool) (b : String),
        (∀ c ∈ b.data, c ≠ '\u212A' ∧ c ≠ '\u0130') →
        b ∈ fiveCategoryNames config →
        b ∉ varNames config →
        ∃ ref, jsLookup b (ConfigTransformer.coreBindings config appName stage
          adopt preserveNames) = some (AlchemyBinding.resource ref)) := by
  constructor
  · intro s hclean
    exact sanitize_agree hclean
  · intro config appName stage adopt pn b hclean hdecl hvar
    have hsan := sanitize_agree hclean
    show isRes (jsLookup b
      (ConfigTransformer.coreBindings config appName stage adopt pn))
    unfold ConfigTransformer.coreBindings
    rw [transformBindings_eq]
    apply resourceLoop_isRes
    apply resourceLoop_isRes
    apply resourceLoop_isRes
    apply resourceLoop_isRes
    apply resourceLoop_isRes
    rw [varsLoop_lookup_notMem hvar]
    simp only [fiveCategoryNames, List.mem_append] at hdecl
    rcases hdecl with ((((hkv | hr2) | hd1) | hq) | hdo)
    · apply resourceLoop_isRes
      apply resourceLoop_isRes
      apply resourceLoop_isRes
      apply resourceLoop_isRes
      exact resourceLoop_isRes_of_mem hkv (kvKeyResolves hkv hsan)
    · apply resourceLoop_isRes
      apply resourceLoop_isRes
      apply resourceLoop_isRes
      exact resourceLoop_isRes_of_mem hr2 (r2KeyResolves hr2 hsan)
    · apply resourceLoop_isRes
      apply resourceLoop_isRes
      exact resourceLoop_isRes_of_mem hd1 (d1KeyResolves hd1 hsan)
    · apply resourceLoop_isRes
      exact resourceLoop_isRes_of_mem hq (queueKeyResolves hq hsan)
    · exact resourceLoop_isRes_of_mem hdo (doKeyResolves hdo hsan)

/-- Counterexample to C2 as stated: for the binding name consisting of the
single code point U+212A (KELVIN SIGN), whose JavaScript lowercase is the
ASCII `k`, the two sanitization routines disagree (`_` versus `k`), so the
key computed by the binding resolver differs from the key under which the
mapper registered the resource and the declared KV binding is silently
absent from the transformer's output. -/
theorem c2_counterexample :
    BindingTransformer.sanitizeId "\u212A" ≠
      ResourceMapper.sanitizeId (jsToLowerCase "\u212A") ∧
    (ConfigTransformer.transformCore kelvinConfig "app" none true true).workers.map
        (fun w => jsLookup "\u212A" w.bindings) = [none] := by
  constructor
  · decide
  · decide

/-- Witness for C2 at an ASCII binding name. -/
theorem c2_witness :
    BindingTransformer.sanitizeId "My-Cache" =
      ResourceMapper.sanitizeId (jsToLowerCase "My-Cache") ∧
    ∃ ref, jsLookup "CACHE" (ConfigTransformer.coreBindings c2DemoConfig "app"
      none true true) = some (AlchemyBinding.resource ref) := by
  exact ⟨c2_key_schemes_agree_on_clean_names.1 "My-Cache" (by decide),
    c2_key_schemes_agree_on_clean_names.2 c2DemoConfig "app" none true true
      "CACHE" (by decide) (by decide) (by decide)⟩

/-- Claim C1: the registry holds exactly one entry per key.
`getOrInsert(key, factory)` returns the existing entry unchanged — and
independently of the factory, which is not invoked — when the key is
present; consequently, when two configuration units each declare a resource
with the same resource type and normalized local name, the final registry
holds exactly one entry for that key and that entry is built from the first
unit's declaration (first-writer-wins).  The registry is modelled from the
spec: the source only declares the `ResourceRegistry` interface. -/
theorem c1_registry_first_writer_wins :
    (∀ (reg : Registry) (k : String) (factory : Unit → NormalizedResource)
        (r : NormalizedResource),
        jsLookup k reg = some r → getOrInsert reg k factory = (reg, r)) ∧
    (∀ (opts : SpecOptions) (u1 u2 : List SpecDecl) (k : String) (d : SpecDecl),
        u1.find? (fun e => declKey e == k) = some d →
        (∃ e ∈ u2, declKey e = k) →
        jsLookup k (normalizeUnit opts (normalizeUnit opts [] u1) u2) =
            some (specResource opts d) ∧
          countKey (normalizeUnit opts (normalizeUnit opts [] u1) u2) k = 1) := by
  constructor
  · intro reg k f r h
    exact getOrInsert_lookup_some f h
  · intro opts u1 u2 k d hfind _hu2
    have h1 : jsLookup k (normalizeUnit opts [] u1) = some (specResource opts d) := by
      rw [normalizeUnit_lookup, hfind]
      rfl
    have h2 : jsLookup k (normalizeUnit opts (normalizeUnit opts [] u1) u2) =
        some (specResource opts d) := by
      rw [normalizeUnit_lookup, h1]
      rfl
    have hnd := normalizeUnit_nodup opts u2
      (@normalizeUnit_nodup opts u1 [] List.nodup_nil)
    exact ⟨h2, countKey_eq_one hnd h2⟩

/-- Witness for C1 at the `CACHE`/`Cache` two-unit scenario. -/
theorem c1_witness :
    getOrInsert c1DemoReg (declKey c1DemoD1)
        (fun _ => specResource c1DemoOpts c1DemoD2) =
      (c1DemoReg, specResource c1DemoOpts c1DemoD1) ∧
    jsLookup (declKey c1DemoD1)
        (normalizeUnit c1DemoOpts (normalizeUnit c1DemoOpts [] [c1DemoD1])
          [c1DemoD2]) =
      some (specResource c1DemoOpts c1DemoD1) ∧
    countKey
        (normalizeUnit c1DemoOpts (normalizeUnit c1DemoOpts [] [c1DemoD1])
          [c1DemoD2]) (declKey c1DemoD1) = 1 := by
  have h1 := c1_registry_first_writer_wins.1 c1DemoReg (declKey c1DemoD1)
    (fun _ => specResource c1DemoOpts c1DemoD2)
    (specResource c1DemoOpts c1DemoD1) (by decide)
  have h2 := c1_registry_first_writer_wins.2 c1DemoOpts [c1DemoD1] [c1DemoD2]
    (declKey c1DemoD1) c1DemoD1 (by decide) ⟨c1DemoD2, by decide, by decide⟩
  exact ⟨h1, h2.1, h2.2⟩

/-- Claim C3 (amended): for every schema-valid configuration and every
combination of options in which `targetEnvironment` is absent, empty, or
names an environment present in the normalized environment map, the
transformation pipeline terminates normally and returns a model.  When a
non-empty `targetEnvironment` names no environment the source dereferences
`undefined` and throws a `TypeError` (the `none` result); see the
counterexample. -/
theorem c3_transform_total_on_valid_environment :
    ∀ (cfg : NormalizedWranglerConfig) (opts : TransformOptions),
      (match opts.targetEnvironment with
       | some t => t = "" ∨ (jsLookup t cfg.environments).isSome
       | none => True) →
      (ConfigTransformer.transform cfg opts).isSome := by
  intro cfg opts h
  unfold ConfigTransformer.transform
  rcases hte : opts.targetEnvironment with _ | t
  · simp
  · rw [hte] at h
    by_cases ht : t = ""
    · simp [ht]
    · rcases h with h | h
      · exact absurd h ht
      · obtain ⟨envCfg, henv⟩ := Option.isSome_iff_exists.mp h
        simp [ht, henv]

/-- Counterexample to C3 as stated: on a configuration with no environment
overrides, selecting `targetEnvironment = "prod"` makes `transform` throw
(dereference of `undefined`), modelled as the `none` result — the pipeline
does not return a model. -/
theorem c3_counterexample :
    ConfigTransformer.transform c3DemoNorm
      { appName := none, stage := none, adopt := none, preserveNames := none,
        targetEnvironment := some "prod" } = none := by
  decide

/-- Witness for C3 with `targetEnvironment` absent. -/
theorem c3_witness :
    (ConfigTransformer.transform c3DemoNorm
      { appName := none, stage := none, adopt := none, preserveNames := none,
        targetEnvironment := none }).isSome :=
  c3_transform_total_on_valid_environment c3DemoNorm _ (by decide)

/-- Claim C4: the environment merge replaces list-typed
resource-declaration fields (KV namespaces, R2 buckets, D1 databases,
routes) entirely when the override declares them and inherits them when it
does not; it shallow-merges the plain-variables map with the override's
keys winning; and it replaces scalar fields (entrypoint, compatibility
date) when present in the override, inheriting them otherwise.  Concretely,
`vars {A:1,B:2}` overridden by `{B:3,C:4}` resolves to `{A:1,B:3,C:4}` and
`routes [r1]` overridden by `[r2]` resolves to `[r2]`. -/
theorem c4_environment_merge_laws :
    (∀ (base : WranglerConfig) (override : PartialWranglerConfig),
      ((override.kv_namespaces = none →
          (mergeConfigs base override).kv_namespaces = base.kv_namespaces) ∧
        (∀ l, override.kv_namespaces = some l →
          (mergeConfigs base override).kv_namespaces = some l)) ∧
      ((override.r2_buckets = none →
          (mergeConfigs base override).r2_buckets = base.r2_buckets) ∧
        (∀ l, override.r2_buckets = some l →
          (mergeConfigs base override).r2_buckets = some l)) ∧
      ((override.d1_databases = none →
          (mergeConfigs base override).d1_databases = base.d1_databases) ∧
        (∀ l, override.d1_databases = some l →
          (mergeConfigs base override).d1_databases = some l)) ∧
      ((override.routes = none →
          (mergeConfigs base override).routes = base.routes) ∧
        (∀ l, override.routes = some l →
          (mergeConfigs base override).routes = some l)) ∧
      ((override.main = none →
          (mergeConfigs base override).main = base.main) ∧
        (∀ s, override.main = some s →
          (mergeConfigs base override).main = some s)) ∧
      ((override.compatibility_date = none →
          (mergeConfigs base override).compatibility_date =
            base.compatibility_date) ∧
        (∀ s, override.compatibility_date = some s →
          (mergeConfigs base override).compatibility_date = some s)) ∧
      (∀ k, ((base.vars.getD []).map Prod.fst).Nodup →
        ((override.vars.getD []).map Prod.fst).Nodup →
        jsLookup k ((mergeConfigs base override).vars.getD []) =
          ((jsLookup k (override.vars.getD [])) <|>
            (jsLookup k (base.vars.getD []))))) ∧
    (mergeConfigs c4Base c4Override).vars =
      some [("A", JsValue.str "1"), ("B", JsValue.str "3"),
        ("C", JsValue.str "4")] ∧
    (mergeConfigs c4Base c4Override).routes = some [RouteDecl.str "r2"] := by
  refine ⟨fun base override =>
    ⟨⟨fun h => by simp [mergeConfigs, h], fun l h => by simp [mergeConfigs, h]⟩,
     ⟨fun h => by simp [mergeConfigs, h], fun l h => by simp [mergeConfigs, h]⟩,
     ⟨fun h => by simp [mergeConfigs, h], fun l h => by simp [mergeConfigs, h]⟩,
     ⟨fun h => by simp [mergeConfigs, h], fun l h => by simp [mergeConfigs, h]⟩,
     ⟨fun h => by simp [mergeConfigs, h], fun s h => by simp [mergeConfigs, h]⟩,
     ⟨fun h => by simp [mergeConfigs, h], fun s h => by simp [mergeConfigs, h]⟩,
     fun k hb ho => ?_⟩, by decide, by decide⟩
  show jsLookup k ((some (spreadMergeVars (base.vars.getD [])
    (override.vars.getD []))).getD []) = _
  rw [Option.getD_some]
  exact spreadMergeVars_lookup hb ho

/-- Witness for C4 at the concrete base/override pair. -/
theorem c4_witness :
    (mergeConfigs c4Base c4Override).kv_namespaces = c4Base.kv_namespaces ∧
    (mergeConfigs c4Base c4Override).routes = some [RouteDecl.str "r2"] ∧
    jsLookup "B" ((mergeConfigs c4Base c4Override).vars.getD []) =
      ((jsLookup "B" (c4Override.vars.getD [])) <|>
        (jsLookup "B" (c4Base.vars.getD []))) := by
  obtain ⟨hfields, _hvars, _hroutes⟩ := c4_environment_merge_laws
  obtain ⟨hkv, _, _, hrt, _, _, hv⟩ := hfields c4Base c4Override
  exact ⟨hkv.1 (by decide), hrt.2 [RouteDecl.str "r2"] (by decide),
    hv "B" (by decide) (by decide)⟩

/-- Claim C5: a plain variable is classified as a secret exactly when its
name matches the secret-pattern set, the classification depends only on the
name (`API_KEY` is a secret, `API_URL` is not, regardless of value), a
non-secret string value yields a literal-text binding and a non-secret
non-string value yields a structured (JSON) binding; the transformer's
output at a variable name (with duplicate-free names, not shadowed by a
later resource loop) is exactly that classification. -/
theorem c5_secret_heuristic :
    (∀ (config : WranglerConfig) (res : List (String × String))
        (s0 : List String) (k : String) (v : JsValue),
        ((config.vars.getD []).map Prod.fst).Nodup →
        (k, v) ∈ config.vars.getD [] →
        k ∉ lateNames config →
        jsLookup k (BindingTransformer.transformBindings config res s0).1 =
          some (BindingTransformer.varBinding k v)) ∧
    (∀ k v, (∃ n, BindingTransformer.varBinding k v =
        AlchemyBinding.secret n) ↔ BindingTransformer.shouldBeSecret k = true) ∧
    (∀ k s, BindingTransformer.shouldBeSecret k = false →
      BindingTransformer.varBinding k (.str s) = .plainText s) ∧
    (∀ k n, BindingTransformer.shouldBeSecret k = false →
      BindingTransformer.varBinding k (.num n) = .json (.num n)) ∧
    (∀ k b, BindingTransformer.shouldBeSecret k = false →
      BindingTransformer.varBinding k (.bool b) = .json (.bool b)) ∧
    BindingTransformer.shouldBeSecret "API_KEY" = true ∧
    BindingTransformer.shouldBeSecret "API_URL" = false := by
  refine ⟨fun config res s0 k v hnd hm hlate =>
      transformBindings_lookup_var hnd hm hlate,
    fun k v => ?_, fun k s h => by simp [BindingTransformer.varBinding, h],
    fun k n h => by simp [BindingTransformer.varBinding, h],
    fun k b h => by simp [BindingTransformer.varBinding, h],
    by decide, by decide⟩
  by_cases h : BindingTransformer.shouldBeSecret k
  · simp [BindingTransformer.varBinding, h]
  · rcases v with s | n | b <;> simp [BindingTransformer.varBinding, h]

/-- Witness for C5 on a unit with `API_KEY`, `API_URL` and a numeric
variable. -/
theorem c5_witness :
    jsLookup "API_KEY"
        (BindingTransformer.transformBindings c5DemoConfig [] []).1 =
      some (AlchemyBinding.secret "API_KEY") ∧
    jsLookup "API_URL"
        (BindingTransformer.transformBindings c5DemoConfig [] []).1 =
      some (AlchemyBinding.plainText "u") ∧
    jsLookup "N" (BindingTransformer.transformBindings c5DemoConfig [] []).1 =
      some (AlchemyBinding.json (.num 1)) := by
  have h1 := c5_secret_heuristic.1 c5DemoConfig [] [] "API_KEY" (.str "x")
    (by decide) (by decide) (by decide)
  have h2 := c5_secret_heuristic.1 c5DemoConfig [] [] "API_URL" (.str "u")
    (by decide) (by decide) (by decide)
  have h3 := c5_secret_heuristic.1 c5DemoConfig [] [] "N" (.num 1)
    (by decide) (by decide) (by decide)
  exact ⟨h1.trans (congrArg some (by decide)),
    h2.trans (congrArg some (by decide)),
    h3.trans (congrArg some (by decide))⟩

/-- Claim C6 (amended): the validator reports a duplicate binding name among
the KV-namespace, R2-bucket, D1-database and queue-producer declarations of
one unit — across those four categories — as an error string appended to the
error list, distinct from the warnings list; durable-object and other
binding categories are not covered by the duplicate check (see the
counterexample).  The validation is a pure function of the configuration. -/
theorem c6_duplicate_binding_error :
    ∀ (config : WranglerConfig) (n : String),
      2 ≤ (fourCategoryNames config).count n →
      ("Duplicate binding name: " ++ n) ∈ (validateConfig config).errors := by
  intro config n h
  have hrw : (validateConfig config).errors =
      ((fourCategoryNames config).foldl addBindingStep
        ([], if config.name = "" then ["Missing required field: name"]
          else [])).2 := rfl
  rw [hrw]
  exact addBinding_fold_dup h

/-- Counterexample to C6 as stated: two durable-object bindings sharing the
name `A` produce no duplicate error — the validator's duplicate check does
not cover that category. -/
theorem c6_counterexample :
    ((c6DupDOConfig.durable_objects.bind (·.bindings)).getD []).map (·.name) =
        ["A", "A"] ∧
      (validateConfig c6DupDOConfig).errors = [] := by
  constructor
  · decide
  · decide

/-- Witness for C6 at a KV/R2 cross-category duplicate. -/
theorem c6_witness :
    ("Duplicate binding name: " ++ "CACHE") ∈
      (validateConfig c6DupKVConfig).errors :=
  c6_duplicate_binding_error c6DupKVConfig "CACHE" (by decide)

lemma jsMapIdx_all {α : Type u} {β : Type v} (p : β → Bool) (f : Nat → α → β)
    (h : ∀ i a, p (f i a) = true) :
    ∀ (i0 : Nat) (l : List α), (jsMapIdx f i0 l).all p = true := by
  intro i0 l
  induction l generalizing i0 with
  | nil => rfl
  | cons a tl ih =>
    simp only [jsMapIdx, List.all_cons, h i0 a, Bool.true_and]
    exact ih (i0 + 1)

/-- Claim C7: durable-object declarations always map with `adopt = false`
regardless of the pipeline's adopt option, while KV-namespace, R2-bucket,
D1-database and queue-producer declarations carry the option's value; for
the unimplemented AI and browser-automation categories the spec-modelled
normalizer forces `adoptExisting` false through the static never-adoptable
rule table (stateful-object classes, AI endpoints, render services). -/
theorem c7_never_adoptable_categories :
    (∀ (opts : ResourceMappingOptions) (dos : Option DurableObjectsDecl),
      (ResourceMapper.mapDurableObjects opts dos).all
        (fun r => r.adopt == false) = true) ∧
    (∀ (opts : ResourceMappingOptions) (kvs : Option (List KVNamespaceDecl)),
      (ResourceMapper.mapKVNamespaces opts kvs).all
        (fun r => r.adopt == opts.adopt) = true) ∧
    (∀ (opts : ResourceMappingOptions) (r2s : Option (List R2BucketDecl)),
      (ResourceMapper.mapR2Buckets opts r2s).all
        (fun r => r.adopt == opts.adopt) = true) ∧
    (∀ (opts : ResourceMappingOptions) (d1s : Option (List D1DatabaseDecl)),
      (ResourceMapper.mapD1Databases opts d1s).all
        (fun r => r.adopt == opts.adopt) = true) ∧
    (∀ (opts : ResourceMappingOptions) (qs : Option QueuesDecl),
      (ResourceMapper.mapQueues opts qs).all
        (fun r => r.adopt == opts.adopt) = true) ∧
    (∀ (opts : SpecOptions) (d : SpecDecl),
      (specResource opts d).adoptExisting =
        (if neverAdoptable d.resourceType then false else opts.adopt)) ∧
    neverAdoptable "stateful-object-class" = true ∧
    neverAdoptable "ai-model-endpoint" = true ∧
    neverAdoptable "render-service" = true := by
  refine ⟨fun opts dos => ?_, fun opts kvs => ?_, fun opts r2s => ?_,
    fun opts d1s => ?_, fun opts qs => ?_, fun opts d => rfl, rfl, rfl, rfl⟩
  · rcases dos with _ | dob
    · rfl
    · rcases hbs : dob.bindings with _ | l
      · simp [ResourceMapper.mapDurableObjects, Option.bind, hbs]
      · rcases l with _ | ⟨hd, tl⟩
        · simp [ResourceMapper.mapDurableObjects, Option.bind, hbs]
        · simp only [ResourceMapper.mapDurableObjects, Option.bind, hbs]
          rw [if_neg (by simp)]
          exact jsMapIdx_all _ _ (fun i a => rfl) 0 _
  · rcases kvs with _ | l
    · rfl
    · by_cases hl : l.isEmpty
      · simp [ResourceMapper.mapKVNamespaces, hl]
      · simp only [ResourceMapper.mapKVNamespaces, hl, Bool.false_eq_true,
          if_neg, Bool.not_eq_true]
        exact jsMapIdx_all _ _ (fun i a => by simp) 0 l
  · rcases r2s with _ | l
    · rfl
    · by_cases hl : l.isEmpty
      · simp [ResourceMapper.mapR2Buckets, hl]
      · simp only [ResourceMapper.mapR2Buckets, hl, Bool.false_eq_true,
          if_neg, Bool.not_eq_true]
        exact jsMapIdx_all _ _ (fun i a => by simp) 0 l
  · rcases d1s with _ | l
    · rfl
    · by_cases hl : l.isEmpty
      · simp [ResourceMapper.mapD1Databases, hl]
      · simp only [ResourceMapper.mapD1Databases, hl, Bool.false_eq_true,
          if_neg, Bool.not_eq_true]
        exact jsMapIdx_all _ _ (fun i a => by simp) 0 l
  · rcases qs with _ | q
    · rfl
    · rcases hps : q.producers with _ | l
      · simp [ResourceMapper.mapQueues, Option.bind, hps]
      · rcases l with _ | ⟨hd, tl⟩
        · simp [ResourceMapper.mapQueues, Option.bind, hps]
        · simp only [ResourceMapper.mapQueues, Option.bind, hps]
          rw [if_neg (by simp)]
          exact jsMapIdx_all _ _ (fun i a => by simp) 0 _

/-- Claim C8: a mapped KV namespace's variable name follows the positional
fallback rule — when the normalized local id is non-empty and differs from
the placeholder tokens (`binding` and the short name `kv`), the local id is
used verbatim; otherwise the short name gets a 1-based ordinal suffix with
the first occurrence bare.  In particular two declarations named `KV`
normalize to `kv` and `kv2`. -/
theorem c8_variable_name_fallback :
    (∀ (opts : ResourceMappingOptions) (l : List KVNamespaceDecl) (i : Nat)
        (kv : KVNamespaceDecl), l[i]? = some kv →
        ((ResourceMapper.mapKVNamespaces opts (some l))[i]?.map
            (·.variableName)) =
          some (
            let id := ResourceMapper.sanitizeId (jsToLowerCase kv.binding)
            if id ≠ "" ∧ id ≠ "binding" ∧ id ≠ "kv" then id
            else "kv" ++ (if i = 0 then "" else toString (i + 1)))) ∧
    (ResourceMapper.mapKVNamespaces c8DemoOpts (some [c8DemoKV, c8DemoKV])).map
        (·.variableName) = ["kv", "kv2"] := by
  constructor
  · intro opts l i kv h
    have hne : l.isEmpty = false := by
      cases l
      · simp at h
      · rfl
    simp only [ResourceMapper.mapKVNamespaces, hne, Bool.false_eq_true,
      if_false]
    rw [jsMapIdx_getElem?, h, Nat.zero_add]
    simp only [Option.map_some']
    congr 1
    show ResourceMapper.generateVariableName "kv"
      (ResourceMapper.sanitizeId (jsToLowerCase kv.binding)) i = _
    rw [ResourceMapper.generateVariableName]
    rcases i with _ | j
    · rfl
    · simp only [show ((j + 1 > 0) = True) from by simp,
        show ((j + 1 = 0) = False) from by simp, if_true, if_false]
  · decide

/-- Witness for C8 at the second of two `KV` declarations. -/
theorem c8_witness :
    ((ResourceMapper.mapKVNamespaces c8DemoOpts
        (some [c8DemoKV, c8DemoKV]))[1]?.map (·.variableName)) =
      some "kv2" := by
  have h := c8_variable_name_fallback.1 c8DemoOpts [c8DemoKV, c8DemoKV] 1
    c8DemoKV (by decide)
  exact h.trans (congrArg some (by decide))

/-- Claim C9 (amended): a configuration whose `name` is the empty string is
not propagated as an error — the core assigns the synthetic identity
`unnamed-worker` (a missing `name` cannot reach the core: the schema
requires the field, so the parse throws upstream). -/
theorem c9_empty_name_synthesized :
    ∀ (config : WranglerConfig) (format : ConfigFormat) (today : String),
      config.name = "" →
      (normalizeConfig config format today).base.name = "unnamed-worker" := by
  intro config format today h
  simp [normalizeConfig, jsOrString, h]

/-- Counterexample to C9 as stated: the core gives the empty-named unit the
synthetic identity `unnamed-worker` instead of propagating an error. -/
theorem c9_counterexample :
    (normalizeConfig c9EmptyNameConfig ConfigFormat.toml "2026-10-12").base.name =
      "unnamed-worker" := by
  decide

/-- Witness for C9 on the empty-named unit parsed from JSON. -/
theorem c9_witness :
    (normalizeConfig c9EmptyNameConfig ConfigFormat.json "2026-01-01").base.name =
      "unnamed-worker" :=
  c9_empty_name_synthesized c9EmptyNameConfig ConfigFormat.json "2026-01-01"
    (by decide)

/-- Claim C10 (amended): the binding resolver writes the five mapper-backed
resource categories (KV, R2, D1, queue producers, durable objects) before
the plain variables, each write unconditional for variables and guarded by
registry resolution for resources, so a plain variable sharing a name with
one of those five categories silently replaces the resource binding — the
returned map holds the variable's (secret or literal, never resource)
binding.  Five further categories (hyperdrive, AI, analytics engine,
browser rendering, dispatch namespaces) are written after the variables and
overwrite a same-named variable when their lookup resolves (see the
counterexample). -/
theorem c10_vars_overwrite_early_categories :
    ∀ (config : WranglerConfig) (res : List (String × String))
      (s0 : List String) (k : String) (v : JsValue),
      ((config.vars.getD []).map Prod.fst).Nodup →
      (k, v) ∈ config.vars.getD [] →
      k ∈ fiveCategoryNames config →
      k ∉ lateNames config →
      jsLookup k (BindingTransformer.transformBindings config res s0).1 =
          some (BindingTransformer.varBinding k v) ∧
        ∀ ref, BindingTransformer.varBinding k v ≠
          AlchemyBinding.resource ref := by
  intro config res s0 k v hnd hm _hfive hlate
  refine ⟨transformBindings_lookup_var hnd hm hlate, fun ref => ?_⟩
  by_cases h : BindingTransformer.shouldBeSecret k
  · simp [BindingTransformer.varBinding, h]
  · rcases v with s | n | b <;> simp [BindingTransformer.varBinding, h]

/-- Counterexample to C10 as stated: a unit declaring a hyperdrive binding
and a plain variable both named `CACHE`, against a context resolving the
hyperdrive key, resolves `CACHE` to the resource binding — the hyperdrive
loop runs after the variables loop and overwrites the variable's binding. -/
theorem c10_counterexample :
    ("CACHE", JsValue.str "v") ∈ c10Config.vars.getD [] ∧
    "CACHE" ∈ (c10Config.hyperdrive.getD []).map (·.binding) ∧
    jsLookup "CACHE"
        (BindingTransformer.transformBindings c10Config c10Ctx []).1 =
      some (AlchemyBinding.resource "hd") := by
  refine ⟨by decide, by decide, by decide⟩

/-- Witness for C10: a KV binding and a variable both named `CACHE`, with
the KV key resolving, end up with the variable's literal binding. -/
theorem c10_witness :
    jsLookup "CACHE"
        (BindingTransformer.transformBindings c10DemoConfig
          [("kv:cache", "cache")] []).1 =
      some (AlchemyBinding.plainText "v") := by
  have h := c10_vars_overwrite_early_categories c10DemoConfig
    [("kv:cache", "cache")] [] "CACHE" (JsValue.str "v") (by decide)
    (by decide) (by decide) (by decide)
  exact h.1.trans (congrArg some (by decide))

end AlchemyMigrator
